import Mathlib

/-!
Verification of the Adaptive Grid Composition Engine of the LISTLESS
repository.  The engine is the `composition` memo of the `LifeComposition`
React component together with its helpers (`initializeGrid`, `placeBlock`,
`canPlaceBlock`, `hasEnoughSpacing`, `findNextPosition`) and the static
tables `GRID`, `VIEW_CONFIGURATIONS`, `LIFE_DOMAINS` and
`getEmotionalIntensity` of the design-system module.

Modelling conventions:
* JavaScript numbers are modelled by `ℚ` (scores, intensities) and by `ℕ`
  (counts, cell coordinates).  Numeric literals (0.25, 1.2, ...) become the
  exact rationals they denote.
* `Math.floor` on a nonnegative rational becomes `ratFloor`.
  `Math.floor (Math.sqrt x)` on a nonnegative rational `x` equals
  `Nat.sqrt ⌊x⌋` (since `⌊√x⌋ = ⌊√⌊x⌋⌋`); we use the kernel-computable
  `natSqrt`, proved equal to `Nat.sqrt` in `natSqrt_eq`.
  `Math.floor (q * 1.2)` for a natural `q` equals `6 * q / 10 * ...`; see
  `ratFloor_six_fifths` for the bridge used in `calculateDims`, and the
  comments on `searchPatterns` for `0.4 / 0.3 / 0.7` of the grid constants.
* The occupancy grid (a dense 2-D array in the source) is a total function
  from coordinates to cells; `placeBlock`'s write loop becomes a pointwise
  functional update over the same rectangle of indices.
* Inclusive `for` loops become `rangeIncl` lists.  Where JavaScript's upper
  bound would be negative, truncated `ℕ` subtraction can produce one extra
  candidate, which the bounds test inside `canPlaceBlock` rejects, so every
  observable result is unchanged.
* `Array.prototype.sort` with the priority/score comparator is modelled by
  `List.insertionSort`.  All six `domainPriority` values are distinct and
  each domain occurs at most once in the metric list, so the comparator is
  a strict total order on any reachable list and every correct (stable)
  sort produces the same result.
-/

namespace Listless

/-- The six life domains (categories) of the reference system. -/
inductive LifeDomain where
  | purple | blue | yellow | green | orange | red
deriving DecidableEq, Repr, Fintype

open LifeDomain

/-- Key order of the `LIFE_DOMAINS` record, hence the iteration order of
the `domainGroups` map built by the component. -/
def LIFE_DOMAINS_ORDER : List LifeDomain :=
  [purple, blue, yellow, green, orange, red]

/-- The three view presets. -/
inductive ViewMode where
  | day | week | month
deriving DecidableEq, Repr

/-- The slice of `VIEW_CONFIGURATIONS` consumed by the engine. -/
structure ViewConfiguration where
  gridColumns : ℕ
  gridRows : ℕ
deriving DecidableEq, Repr

/-- `VIEW_CONFIGURATIONS`: day 16x12, week 20x16, month 24x20. -/
def VIEW_CONFIGURATIONS : ViewMode → ViewConfiguration
  | ViewMode.day => ⟨16, 12⟩
  | ViewMode.week => ⟨20, 16⟩
  | ViewMode.month => ⟨24, 20⟩

/-- Column count of the design-system `GRID` constant.  The occupancy grid
of a placement pass is always `initializeGrid GRID_COLUMNS GRID_ROWS`,
independent of the view mode. -/
def GRID_COLUMNS : ℕ := 24

/-- Row count of the design-system `GRID` constant. -/
def GRID_ROWS : ℕ := 24

/-- The slice of a `Task` read by the engine: life domain, estimated time,
priority string, and the stress level of the optional emotional profile
(`none` models a missing profile or a missing level). -/
structure Task where
  lifeDomain : Option LifeDomain
  estimatedTime : Option ℕ
  priority : String
  stressLevel : Option String
deriving DecidableEq, Repr

/-- `getEmotionalIntensity` from the design system. -/
def getEmotionalIntensity (stressLevel : String) : ℚ :=
  if stressLevel = "overwhelming" then 1
  else if stressLevel = "high" then 8/10
  else if stressLevel = "medium" then 5/10
  else if stressLevel = "low" then 2/10
  else 5/10

/-- Per-task intensity used by the scorer:
`task.emotionalProfile?.stressLevel ? getEmotionalIntensity(...) : 0.5`. -/
def taskStressValue (t : Task) : ℚ :=
  match t.stressLevel with
  | some s => getEmotionalIntensity s
  | none => 5/10

/-- `ModuleSizeFactors` computed per domain inside `composition`. -/
structure ModuleSizeFactors where
  taskCount : ℕ
  totalEstimatedTime : ℕ
  stressLevel : ℚ
  urgentTasks : ℕ
  emotionalWeight : ℚ
deriving DecidableEq, Repr

/-- `task.priority === 'high' || task.lifeDomain === 'red'`. -/
def isUrgentTask (t : Task) : Bool :=
  t.priority = "high" || t.lifeDomain = some red

/-- The factor computation of `composition` for one domain's task list. -/
def computeFactors (ts : List Task) : ModuleSizeFactors :=
  { taskCount := ts.length
    totalEstimatedTime := (ts.map (fun t => t.estimatedTime.getD 0)).sum
    stressLevel := ((ts.map taskStressValue).sum) / ts.length
    urgentTasks := (ts.filter isUrgentTask).length
    emotionalWeight := ((ts.map taskStressValue).sum) / ts.length }

/-- The importance score (weighted sum scaled by `maxPossibleScore = 100`). -/
def importanceScore (f : ModuleSizeFactors) : ℚ :=
  ((f.taskCount / 10) * (25/100) +
   (f.totalEstimatedTime / 480) * (25/100) +
   f.stressLevel * (20/100) +
   (f.urgentTasks / 5) * (20/100) +
   f.emotionalWeight * (10/100)) * 100

/-- `Math.floor` of a nonnegative rational, as a natural number. -/
def ratFloor (q : ℚ) : ℕ := (⌊q⌋).toNat

/-- The `domainImportance` multiplier table. -/
def domainImportance : LifeDomain → ℚ
  | purple => 12/10
  | blue => 11/10
  | yellow => 11/10
  | green => 1
  | orange => 9/10
  | red => 13/10

/-- The `domainPriority` table used by the sort (the `|| 999` fallback of
the source is dead: every constructor is listed). -/
def domainPriority : LifeDomain → ℕ
  | red => 1
  | purple => 2
  | yellow => 3
  | blue => 4
  | green => 5
  | orange => 6

/-- Kernel-computable integer square root (largest `k` with `k * k ≤ n`). -/
def natSqrt (n : ℕ) : ℕ := Nat.findGreatest (fun k => k * k ≤ n) n

/-- The `while (width * height < 4 && ...)` growth loop, with explicit
fuel; the call site passes `cols + rows`, which bounds the iteration count
since every pass adds a cell to a dimension capped by `cols - 2` or
`rows - 2`. -/
def growDims (cols rows : ℕ) : ℕ → ℕ → ℕ → ℕ × ℕ
  | 0, w, h => (w, h)
  | fuel + 1, w, h =>
    if w * h < 4 ∧ w < cols - 2 ∧ h < rows - 2 then
      if w < h then growDims cols rows fuel (w + 1) h
      else growDims cols rows fuel w (h + 1)
    else (w, h)

/-- Size-mapper step: dimensions from the adjusted target cell count.
`Math.floor(Math.sqrt(adjusted * 1.2))` is embedded as
`natSqrt (6 * adjusted / 5)`; see `ratFloor_six_fifths`. -/
def calculateDims (cols rows adjusted : ℕ) : ℕ × ℕ :=
  let w := max 2 (min (cols - 2) (natSqrt (6 * adjusted / 5)))
  let h := max 2 (min (rows - 2) (adjusted / w))
  growDims cols rows (cols + rows) w h

/-- Adjusted target cells for a domain with the given task list on the
(view-mode sized) canvas: `floor(floor(totalGridCells * (score / 100)) *
domainImportance)`.  This is the only place where the rational score flows
into the natural-number geometry. -/
def adjustedFromScore (cols rows : ℕ) (d : LifeDomain) (score : ℚ) : ℕ :=
  ratFloor ((ratFloor (((cols * rows : ℕ) : ℚ) * (score / 100)) : ℚ) * domainImportance d)

/-- Adjusted target cells of a domain's task list. -/
def adjustedCells (cols rows : ℕ) (d : LifeDomain) (ts : List Task) : ℕ :=
  adjustedFromScore cols rows d (importanceScore (computeFactors ts))

/-- One cell of the occupancy grid. -/
structure GridCell where
  occupied : Bool
  domain : Option LifeDomain

/-- The occupancy grid; `cells` is a total function over coordinates
(row first), matching the dense 2-D array of the source. -/
structure GridState where
  cells : ℕ → ℕ → GridCell
  width : ℕ
  height : ℕ

/-- `initializeGrid`: all cells free. -/
def initializeGrid (width height : ℕ) : GridState :=
  { cells := fun _ _ => ⟨false, none⟩, width := width, height := height }

/-- `placeBlock`: mark every cell of the rectangle occupied by `domain`. -/
def placeBlock (g : GridState) (d : LifeDomain) (startRow startCol width height : ℕ) :
    GridState :=
  { g with
    cells := fun r c =>
      if startRow ≤ r ∧ r < startRow + height ∧ startCol ≤ c ∧ c < startCol + width then
        ⟨true, some d⟩
      else g.cells r c }

/-- `canPlaceBlock`: the footprint is inside the grid and every cell free. -/
def canPlaceBlock (g : GridState) (startRow startCol width height : ℕ) : Bool :=
  if g.height < startRow + height ∨ g.width < startCol + width then false
  else
    (List.range height).all fun i =>
      (List.range width).all fun j => !(g.cells (startRow + i) (startCol + j)).occupied

/-- Inclusive integer range `lo..hi` (empty when `hi < lo`). -/
def rangeIncl (lo hi : ℕ) : List ℕ := List.range' lo (hi + 1 - lo)

/-- Distance between two naturals. -/
def natDist (a b : ℕ) : ℕ := max a b - min a b

/-- The two conflict groups of `hasEnoughSpacing`. -/
inductive ConflictGroup where
  | workGroup | peopleGroup
deriving DecidableEq, Repr

/-- Conflict-group membership: `workGroup = ['purple']`,
`peopleGroup = ['yellow']`. -/
def domainGroupOf : LifeDomain → Option ConflictGroup
  | purple => some ConflictGroup.workGroup
  | yellow => some ConflictGroup.peopleGroup
  | _ => none

/-- The per-domain spacing table (`minRowGap`/`minColGap`); every entry of
`domainSpacing`, including the default, is 2/2. -/
structure DomainSpacing where
  minRowGap : ℕ
  minColGap : ℕ

/-- `domainSpacing[domain] || domainSpacing.default`. -/
def domainSpacing (_ : LifeDomain) : DomainSpacing := ⟨2, 2⟩

/-- `hasEnoughSpacing`: scan the footprint expanded by the gap (clamped to
the grid); an occupied cell owned by the same domain or by a domain in a
different conflict group rejects the candidate when its row distance or
column distance to the candidate origin is below the gap. -/
def hasEnoughSpacing (g : GridState) (row col width height : ℕ) (d : LifeDomain) : Bool :=
  let spacing := domainSpacing d
  let currentGroup := domainGroupOf d
  (rangeIncl (row - spacing.minRowGap) (min (g.height - 1) (row + height + spacing.minRowGap))).all
    fun r =>
      (rangeIncl (col - spacing.minColGap) (min (g.width - 1) (col + width + spacing.minColGap))).all
        fun c =>
          if r < g.height ∧ c < g.width then
            let cell := g.cells r c
            match cell.occupied, cell.domain with
            | true, some od =>
              let occupiedGroup := domainGroupOf od
              let rowDistance := natDist r row
              let colDistance := natDist c col
              if od = d ∨
                  (currentGroup.isSome ∧ occupiedGroup.isSome ∧ currentGroup ≠ occupiedGroup) then
                decide (spacing.minRowGap ≤ rowDistance) &&
                  decide (spacing.minColGap ≤ colDistance)
              else true
            | _, _ => true
          else true

/-- Scan direction of a search pattern. -/
inductive ScanDir where
  | byRow | byCol
deriving DecidableEq, Repr

/-- One entry of the `searchPatterns` table. -/
structure SearchPattern where
  startRow : ℕ
  startCol : ℕ
  dir : ScanDir
  maxAttempts : ℕ

/-- The `searchPatterns` table (the `|| default` fallback of the source is
dead since every domain is listed).  `floor (w * 0.4)`, `floor (w * 0.3)`
and `floor (h * 0.4)` are `4 * w / 10`, `3 * w / 10` and `4 * h / 10`:
these agree with the floating-point originals at the only width/height the
engine ever passes (24). -/
def searchPatterns (g : GridState) (d : LifeDomain) : SearchPattern :=
  let midRow := g.height / 2
  let midCol := g.width / 2
  match d with
  | purple => ⟨0, 0, ScanDir.byRow, 4 * g.width / 10⟩
  | blue => ⟨0, midCol, ScanDir.byRow, 4 * g.width / 10⟩
  | yellow => ⟨midRow, 0, ScanDir.byRow, 4 * g.width / 10⟩
  | green => ⟨midRow, midCol, ScanDir.byRow, 4 * g.width / 10⟩
  | orange => ⟨0, 0, ScanDir.byCol, 4 * g.height / 10⟩
  | red => ⟨0, 0, ScanDir.byRow, 3 * g.width / 10⟩

/-- Acceptance test shared by every scan loop of `findNextPosition`. -/
def fitsAt (g : GridState) (width height : ℕ) (d : LifeDomain) (r c : ℕ) : Bool :=
  canPlaceBlock g r c width height && hasEnoughSpacing g r c width height d

/-- A row-major nested loop: first `(row, col)` accepted by `fitsAt`. -/
def scanRowMajor (g : GridState) (width height : ℕ) (d : LifeDomain)
    (rows cols : List ℕ) : Option (ℕ × ℕ) :=
  rows.findSome? fun r => (cols.find? fun c => fitsAt g width height d r c).map fun c => (r, c)

/-- A column-major nested loop: first `(row, col)` accepted, column outer. -/
def scanColMajor (g : GridState) (width height : ℕ) (d : LifeDomain)
    (rows cols : List ℕ) : Option (ℕ × ℕ) :=
  cols.findSome? fun c => (rows.find? fun r => fitsAt g width height d r c).map fun r => (r, c)

/-- `findNextPosition`: preferred pattern, then the top-left 70% area, then
the full grid.  The `startRow` parameter is declared (and passed by
`composition`) but never read, exactly as in the source. -/
def findNextPosition (g : GridState) (width height : ℕ) (d : LifeDomain)
    (startRow : ℕ) : Option (ℕ × ℕ) :=
  let p := searchPatterns g d
  let phase1 :=
    match p.dir with
    | ScanDir.byRow =>
      scanRowMajor g width height d
        (rangeIncl p.startRow (min (g.height - height) (p.startRow + p.maxAttempts)))
        (rangeIncl p.startCol (min (g.width - width) (p.startCol + p.maxAttempts)))
    | ScanDir.byCol =>
      scanColMajor g width height d
        (rangeIncl p.startRow (min (g.height - height) (p.startRow + p.maxAttempts)))
        (rangeIncl p.startCol (min (g.width - width) (p.startCol + p.maxAttempts)))
  match phase1 with
  | some pos => some pos
  | none =>
    let endRow := 7 * g.height / 10
    let endCol := 7 * g.width / 10
    match scanRowMajor g width height d (rangeIncl 0 (endRow - height))
        (rangeIncl 0 (endCol - width)) with
    | some pos => some pos
    | none =>
      scanRowMajor g width height d (rangeIncl 0 (g.height - height))
        (rangeIncl 0 (g.width - width))

/-- The per-domain data assembled by the first half of `composition`. -/
structure DomainMetrics where
  domain : LifeDomain
  tasks : List Task
  factors : ModuleSizeFactors
  width : ℕ
  height : ℕ
deriving DecidableEq, Repr

/-- One metric entry: the tasks of the domain (in input order), its
factors, and its dimensions; `none` when the domain has no tasks. -/
def metricsFor (cols rows : ℕ) (tasks : List Task) (d : LifeDomain) : Option DomainMetrics :=
  let ts := tasks.filter fun t => t.lifeDomain = some d
  if ts.isEmpty then none
  else
    let dims := calculateDims cols rows (adjustedCells cols rows d ts)
    some { domain := d, tasks := ts, factors := computeFactors ts,
           width := dims.1, height := dims.2 }

/-- The sort comparator as a (total, decidable) order: priority ascending,
then score descending.  The comparator never returns a tie between two
distinct reachable metrics (priorities are injective on domains and each
domain occurs once), so any stable sort realizes the same output as the
JavaScript `Array.prototype.sort`. -/
def metricsLE (a b : DomainMetrics) : Prop :=
  domainPriority a.domain < domainPriority b.domain ∨
    (domainPriority a.domain = domainPriority b.domain ∧
      importanceScore b.factors ≤ importanceScore a.factors)

instance : DecidableRel metricsLE := fun a b => by
  unfold metricsLE
  infer_instance

/-- A placed rectangle of the output (1-indexed origin). -/
structure PlacedBlock where
  domain : LifeDomain
  row : ℕ
  column : ℕ
  width : ℕ
  height : ℕ
deriving DecidableEq, Repr

/-- The placement loop of `composition`: place each metric in order,
tracking `currentRow` (passed to, and ignored by, `findNextPosition`);
domains without a position are skipped. -/
def placeLoop (g : GridState) (currentRow : ℕ) : List DomainMetrics → List PlacedBlock
  | [] => []
  | m :: ms =>
    match findNextPosition g m.width m.height m.domain currentRow with
    | some (r, c) =>
      ⟨m.domain, r + 1, c + 1, m.width, m.height⟩ ::
        placeLoop (placeBlock g m.domain r c m.width m.height)
          (max currentRow (r + m.height + 1)) ms
    | none => placeLoop g currentRow ms

/-- The sorted metric list for a given iteration order of the domain map. -/
def sortedMetrics (order : List LifeDomain) (cols rows : ℕ) (tasks : List Task) :
    List DomainMetrics :=
  List.insertionSort metricsLE (order.filterMap (metricsFor cols rows tasks))

/-- `composition` with the domain-map iteration order explicit and the
sizing canvas given by `cols`/`rows`; the occupancy grid always comes from
the `GRID` constant (24 by 24). -/
def compositionOrderedCfg (order : List LifeDomain) (cols rows : ℕ)
    (tasks : List Task) : List PlacedBlock :=
  placeLoop (initializeGrid GRID_COLUMNS GRID_ROWS) 0 (sortedMetrics order cols rows tasks)

/-- `composition` for an arbitrary sizing canvas. -/
def compositionCfg (cols rows : ℕ) (tasks : List Task) : List PlacedBlock :=
  compositionOrderedCfg LIFE_DOMAINS_ORDER cols rows tasks

/-- The composition engine as invoked by the component: sizing canvas from
the view configuration, occupancy grid from `GRID`. -/
def composition (tasks : List Task) (vm : ViewMode) : List PlacedBlock :=
  compositionCfg (VIEW_CONFIGURATIONS vm).gridColumns (VIEW_CONFIGURATIONS vm).gridRows tasks

/-! ### Basic facts about the size mapper -/

/-- A task whose emotional profile or stress level is missing, or whose
stress level is not one of the four recognized strings. -/
def unknownStress (t : Task) : Prop :=
  match t.stressLevel with
  | none => True
  | some s => s ≠ "overwhelming" ∧ s ≠ "high" ∧ s ≠ "medium" ∧ s ≠ "low"

instance : DecidablePred unknownStress := fun t => by
  unfold unknownStress
  cases t.stressLevel <;> infer_instance

/-- The 1-indexed grid cells covered by a placed rectangle. -/
def cellCovered (p : PlacedBlock) (r c : ℕ) : Prop :=
  p.row ≤ r ∧ r < p.row + p.height ∧ p.column ≤ c ∧ c < p.column + p.width

/-- Two placed rectangles cover no common cell. -/
def blocksDisjoint (p q : PlacedBlock) : Prop :=
  ∀ r c, cellCovered p r c → cellCovered q r c → False

/-- Distance between the (nonempty) index ranges `[a0, a1]` and `[b0, b1]`:
zero when they intersect, otherwise the index difference between the two
facing ends. -/
def rangeDist (a0 a1 b0 b1 : ℕ) : ℕ :=
  if a1 < b0 then b0 - a1 else if b1 < a0 then a0 - b1 else 0

/-- Row distance between the footprints of two placed rectangles. -/
def rowDist (p q : PlacedBlock) : ℕ :=
  rangeDist p.row (p.row + p.height - 1) q.row (q.row + q.height - 1)

/-- Column distance between the footprints of two placed rectangles. -/
def colDist (p q : PlacedBlock) : ℕ :=
  rangeDist p.column (p.column + p.width - 1) q.column (q.column + q.width - 1)


/-! ### Concrete scenario inputs -/

/-- A yellow task with 30 minutes of estimated time. -/
def yellowTask : Task := ⟨some yellow, some 30, "medium", none⟩

/-- A red task with no estimated time. -/
def redSmallTask : Task := ⟨some red, none, "medium", none⟩

/-- A purple task with no estimated time. -/
def purpleSmallTask : Task := ⟨some purple, none, "medium", none⟩

/-- A yellow task with no estimated time. -/
def yellowPlainTask : Task := ⟨some yellow, none, "medium", none⟩

/-- A large urgent red task. -/
def bigRedTask : Task := ⟨some red, some 4800, "high", none⟩

/-- A large urgent purple task. -/
def bigPurpleTask : Task := ⟨some purple, some 4800, "high", none⟩

/-- A green task with the given estimated time. -/
def greenTask (t : ℕ) : Task := ⟨some green, some t, "medium", none⟩

instance : IsTotal DomainMetrics metricsLE :=
  ⟨fun a b => by
    unfold metricsLE
    rcases lt_trichotomy (domainPriority a.domain) (domainPriority b.domain) with h | h | h
    · exact Or.inl (Or.inl h)
    · rcases le_total (importanceScore b.factors) (importanceScore a.factors) with hs | hs
      · exact Or.inl (Or.inr ⟨h, hs⟩)
      · exact Or.inr (Or.inr ⟨h.symm, hs⟩)
    · exact Or.inr (Or.inl h)⟩

instance : IsTrans DomainMetrics metricsLE :=
  ⟨fun a b c hab hbc => by
    unfold metricsLE at *
    rcases hab with h1 | ⟨h1, hs1⟩ <;> rcases hbc with h2 | ⟨h2, hs2⟩
    · exact Or.inl (lt_trans h1 h2)
    · exact Or.inl (h2 ▸ h1)
    · exact Or.inl (h1 ▸ h2)
    · exact Or.inr ⟨h1.trans h2, hs2.trans hs1⟩⟩

/-- The strict key order used to show sorted lists are unique. -/
def metricsKeyLT (a b : DomainMetrics) : Prop :=
  domainPriority a.domain < domainPriority b.domain

instance : IsAntisymm DomainMetrics metricsKeyLT :=
  ⟨fun _ _ h1 h2 => absurd (lt_trans h1 h2) (lt_irrefl _)⟩

/-- `composition` with an explicit domain-map iteration order and the view
configuration of a view mode. -/
def compositionOrdered (order : List LifeDomain) (tasks : List Task) (vm : ViewMode) :
    List PlacedBlock :=
  compositionOrderedCfg order (VIEW_CONFIGURATIONS vm).gridColumns
    (VIEW_CONFIGURATIONS vm).gridRows tasks

/-- The six domains in `domainPriority` order. -/
def PRIORITY_ORDER : List LifeDomain := [red, purple, yellow, blue, green, orange]

/-- A grid whose occupied cells form exactly the rectangle
`[0, hr) x [0, wr)` owned by red. -/
def onlyRedRect (g : GridState) (wr hr : ℕ) : Prop :=
  g.width = 24 ∧ g.height = 24 ∧
    (∀ r c, ((g.cells r c).occupied = true ↔ r < hr ∧ c < wr)) ∧
    (∀ r c, (g.cells r c).occupied = true → (g.cells r c).domain = some red)

theorem natSqrt_eq (n : ℕ) : natSqrt n = Nat.sqrt n := by
  unfold natSqrt
  apply le_antisymm
  · by_cases h : Nat.findGreatest (fun k => k * k ≤ n) n = 0
    · simp [h]
    · have h2 : Nat.findGreatest (fun k => k * k ≤ n) n =
          Nat.findGreatest (fun k => k * k ≤ n) n := rfl
      have hp := Nat.findGreatest_of_ne_zero h2 h
      exact Nat.le_sqrt.2 hp
  · exact Nat.le_findGreatest (Nat.sqrt_le_self n) (Nat.sqrt_le n)

/-- Bridge justifying the `6 * q / 5` encoding of `floor (q * 1.2)`. -/
theorem ratFloor_six_fifths (q : ℕ) : ratFloor ((q : ℚ) * (6/5)) = 6 * q / 5 := by
  unfold ratFloor
  have h : ((q : ℚ) * (6/5)) = ((6 * q : ℕ) : ℚ) / ((5 : ℕ) : ℚ) := by
    push_cast
    ring
  rw [h, Rat.floor_natCast_div_natCast]
  omega

/-- Helper to evaluate `adjustedCells` on concrete inputs: supply the
score, the target and the adjusted target. -/
theorem adjustedCells_eq (cols rows : ℕ) (d : LifeDomain) (ts : List Task) (s : ℚ) (t a : ℕ)
    (hs : importanceScore (computeFactors ts) = s)
    (ht : ⌊((cols * rows : ℕ) : ℚ) * (s / 100)⌋ = (t : ℤ))
    (ha : ⌊(t : ℚ) * domainImportance d⌋ = (a : ℤ)) :
    adjustedCells cols rows d ts = a := by
  unfold adjustedCells adjustedFromScore ratFloor
  rw [hs, ht]
  simp only [Int.toNat_natCast]
  rw [ha]
  exact Int.toNat_natCast a

theorem growDims_of_ge (cols rows fuel w h : ℕ) (h4 : 4 ≤ w * h) :
    growDims cols rows fuel w h = (w, h) := by
  cases fuel with
  | zero => rfl
  | succ n =>
    unfold growDims
    rw [if_neg]
    intro hcon
    exact absurd hcon.1 (Nat.not_lt.2 h4)

/-- The growth loop of the size mapper never runs: both dimensions are
already clamped to at least 2, so the area is at least 4. -/
theorem calculateDims_eq (cols rows a : ℕ) :
    calculateDims cols rows a =
      (max 2 (min (cols - 2) (natSqrt (6 * a / 5))),
       max 2 (min (rows - 2) (a / max 2 (min (cols - 2) (natSqrt (6 * a / 5)))))) := by
  unfold calculateDims
  exact growDims_of_ge _ _ _ _ _
    (Nat.mul_le_mul (Nat.le_max_left 2 _) (Nat.le_max_left 2 _))

theorem calculateDims_width_lower (cols rows a : ℕ) : 2 ≤ (calculateDims cols rows a).1 := by
  rw [calculateDims_eq]
  exact Nat.le_max_left 2 _

theorem calculateDims_height_lower (cols rows a : ℕ) : 2 ≤ (calculateDims cols rows a).2 := by
  rw [calculateDims_eq]
  exact Nat.le_max_left 2 _

theorem calculateDims_width_upper (cols rows a : ℕ) (hc : 4 ≤ cols) :
    (calculateDims cols rows a).1 ≤ cols - 2 := by
  rw [calculateDims_eq]
  exact max_le (by omega) (Nat.min_le_left _ _)

theorem calculateDims_height_upper (cols rows a : ℕ) (hr : 4 ≤ rows) :
    (calculateDims cols rows a).2 ≤ rows - 2 := by
  rw [calculateDims_eq]
  exact max_le (by omega) (Nat.min_le_left _ _)

/-! ### Monotonicity facts about the scorer and the target size -/

theorem ratFloor_mono {a b : ℚ} (h : a ≤ b) : ratFloor a ≤ ratFloor b :=
  Int.toNat_le_toNat (Int.floor_le_floor h)

theorem domainImportance_pos (d : LifeDomain) : 0 < domainImportance d := by
  cases d <;> norm_num [domainImportance]

theorem adjustedFromScore_mono (cols rows : ℕ) (d : LifeDomain) {s1 s2 : ℚ}
    (h : s1 ≤ s2) :
    adjustedFromScore cols rows d s1 ≤ adjustedFromScore cols rows d s2 := by
  unfold adjustedFromScore
  apply ratFloor_mono
  apply mul_le_mul_of_nonneg_right _ (le_of_lt (domainImportance_pos d))
  have hin : ratFloor (((cols * rows : ℕ) : ℚ) * (s1 / 100)) ≤
      ratFloor (((cols * rows : ℕ) : ℚ) * (s2 / 100)) := by
    apply ratFloor_mono
    apply mul_le_mul_of_nonneg_left _ (by positivity)
    exact div_le_div_of_nonneg_right h (by norm_num)
  exact_mod_cast hin

theorem importanceScore_mono_time (f : ModuleSizeFactors) (t1 t2 : ℕ) (h : t1 ≤ t2) :
    importanceScore { f with totalEstimatedTime := t1 } ≤
      importanceScore { f with totalEstimatedTime := t2 } := by
  unfold importanceScore
  dsimp only
  have hc : ((t1 : ℚ)) ≤ (t2 : ℚ) := by exact_mod_cast h
  have key : ((t1 : ℚ) / 480) * (25/100) ≤ ((t2 : ℚ) / 480) * (25/100) := by
    apply mul_le_mul_of_nonneg_right _ (by norm_num)
    exact div_le_div_of_nonneg_right hc (by norm_num)
  nlinarith [key]

theorem importanceScore_mono_urgent (f : ModuleSizeFactors) (u1 u2 : ℕ) (h : u1 ≤ u2) :
    importanceScore { f with urgentTasks := u1 } ≤
      importanceScore { f with urgentTasks := u2 } := by
  unfold importanceScore
  dsimp only
  have hc : ((u1 : ℚ)) ≤ (u2 : ℚ) := by exact_mod_cast h
  have key : ((u1 : ℚ) / 5) * (20/100) ≤ ((u2 : ℚ) / 5) * (20/100) := by
    apply mul_le_mul_of_nonneg_right _ (by norm_num)
    exact div_le_div_of_nonneg_right hc (by norm_num)
  nlinarith [key]

/-! ### Default intensity facts -/

theorem taskStressValue_of_unknown (t : Task) (h : unknownStress t) :
    taskStressValue t = 5/10 := by
  unfold taskStressValue
  cases hs : t.stressLevel with
  | none => rfl
  | some s =>
    have h' : s ≠ "overwhelming" ∧ s ≠ "high" ∧ s ≠ "medium" ∧ s ≠ "low" := by
      unfold unknownStress at h
      rw [hs] at h
      exact h
    show getEmotionalIntensity s = 5/10
    unfold getEmotionalIntensity
    rw [if_neg h'.1, if_neg h'.2.1, if_neg h'.2.2.1, if_neg h'.2.2.2]

theorem stress_sum_of_unknown (ts : List Task) (h : ∀ t ∈ ts, unknownStress t) :
    (ts.map taskStressValue).sum = (ts.length : ℚ) * (5/10) := by
  induction ts with
  | nil => simp
  | cons t ts ih =>
    simp only [List.map_cons, List.sum_cons, List.length_cons]
    rw [taskStressValue_of_unknown t (h t (List.mem_cons_self t ts)),
      ih (fun x hx => h x (List.mem_cons_of_mem t hx))]
    push_cast
    ring

/-! ### Footprints and the placement loop invariants -/

theorem mem_rangeIncl {x lo hi : ℕ} : x ∈ rangeIncl lo hi ↔ lo ≤ x ∧ x ≤ hi := by
  unfold rangeIncl
  rw [List.mem_range'_1]
  omega

theorem canPlaceBlock_iff (g : GridState) (r0 c0 w h : ℕ) :
    canPlaceBlock g r0 c0 w h = true ↔
      r0 + h ≤ g.height ∧ c0 + w ≤ g.width ∧
        ∀ i j, i < h → j < w → (g.cells (r0 + i) (c0 + j)).occupied = false := by
  unfold canPlaceBlock
  by_cases hb : g.height < r0 + h ∨ g.width < c0 + w
  · rw [if_pos hb]
    simp only [Bool.false_eq_true, false_iff]
    intro hcon
    omega
  · rw [if_neg hb]
    push_neg at hb
    simp only [List.all_eq_true, List.mem_range, Bool.not_eq_true']
    constructor
    · intro hall
      exact ⟨hb.1, hb.2, fun i j hi hj => hall i hi j hj⟩
    · intro hall i hi j hj
      exact hall.2.2 i j hi hj

theorem placeBlock_cells (g : GridState) (d : LifeDomain) (r0 c0 w h r c : ℕ) :
    (placeBlock g d r0 c0 w h).cells r c =
      if r0 ≤ r ∧ r < r0 + h ∧ c0 ≤ c ∧ c < c0 + w then ⟨true, some d⟩ else g.cells r c := rfl

theorem placeBlock_width (g : GridState) (d : LifeDomain) (r0 c0 w h : ℕ) :
    (placeBlock g d r0 c0 w h).width = g.width := rfl

theorem placeBlock_height (g : GridState) (d : LifeDomain) (r0 c0 w h : ℕ) :
    (placeBlock g d r0 c0 w h).height = g.height := rfl

theorem fitsAt_canPlace {g : GridState} {w h : ℕ} {d : LifeDomain} {r c : ℕ}
    (hf : fitsAt g w h d r c = true) : canPlaceBlock g r c w h = true := by
  unfold fitsAt at hf
  rw [Bool.and_eq_true] at hf
  exact hf.1

theorem fitsAt_spacing {g : GridState} {w h : ℕ} {d : LifeDomain} {r c : ℕ}
    (hf : fitsAt g w h d r c = true) : hasEnoughSpacing g r c w h d = true := by
  unfold fitsAt at hf
  rw [Bool.and_eq_true] at hf
  exact hf.2

theorem scanRowMajor_fits {g : GridState} {w h : ℕ} {d : LifeDomain}
    {rows cols : List ℕ} {r c : ℕ}
    (hs : scanRowMajor g w h d rows cols = some (r, c)) : fitsAt g w h d r c = true := by
  unfold scanRowMajor at hs
  induction rows with
  | nil => simp at hs
  | cons r' rows ih =>
    rw [List.findSome?_cons] at hs
    cases hfind : cols.find? (fitsAt g w h d r') with
    | none => rw [hfind] at hs; simp only [Option.map_none'] at hs; exact ih hs
    | some c' =>
      rw [hfind] at hs
      simp only [Option.map_some', Option.some.injEq, Prod.mk.injEq] at hs
      obtain ⟨h1, h2⟩ := hs
      subst h1
      subst h2
      exact List.find?_some hfind

theorem scanColMajor_fits {g : GridState} {w h : ℕ} {d : LifeDomain}
    {rows cols : List ℕ} {r c : ℕ}
    (hs : scanColMajor g w h d rows cols = some (r, c)) : fitsAt g w h d r c = true := by
  unfold scanColMajor at hs
  induction cols with
  | nil => simp at hs
  | cons c' cols ih =>
    rw [List.findSome?_cons] at hs
    cases hfind : rows.find? (fun r => fitsAt g w h d r c') with
    | none => rw [hfind] at hs; simp only [Option.map_none'] at hs; exact ih hs
    | some r' =>
      rw [hfind] at hs
      simp only [Option.map_some', Option.some.injEq, Prod.mk.injEq] at hs
      obtain ⟨h1, h2⟩ := hs
      subst h1
      subst h2
      have := List.find?_some hfind
      simpa using this

theorem findNextPosition_fits {g : GridState} {w h : ℕ} {d : LifeDomain} {sr r c : ℕ}
    (hs : findNextPosition g w h d sr = some (r, c)) : fitsAt g w h d r c = true := by
  unfold findNextPosition at hs
  dsimp only at hs
  cases hdir : (searchPatterns g d).dir with
  | byRow =>
    rw [hdir] at hs
    cases hp1 : scanRowMajor g w h d
        (rangeIncl (searchPatterns g d).startRow
          (min (g.height - h) ((searchPatterns g d).startRow + (searchPatterns g d).maxAttempts)))
        (rangeIncl (searchPatterns g d).startCol
          (min (g.width - w) ((searchPatterns g d).startCol + (searchPatterns g d).maxAttempts)))
        with
    | some pos =>
      rw [hp1] at hs
      exact scanRowMajor_fits (hp1.trans hs)
    | none =>
      rw [hp1] at hs
      cases hp2 : scanRowMajor g w h d (rangeIncl 0 (7 * g.height / 10 - h))
          (rangeIncl 0 (7 * g.width / 10 - w)) with
      | some pos =>
        rw [hp2] at hs
        exact scanRowMajor_fits (hp2.trans hs)
      | none =>
        rw [hp2] at hs
        exact scanRowMajor_fits hs
  | byCol =>
    rw [hdir] at hs
    cases hp1 : scanColMajor g w h d
        (rangeIncl (searchPatterns g d).startRow
          (min (g.height - h) ((searchPatterns g d).startRow + (searchPatterns g d).maxAttempts)))
        (rangeIncl (searchPatterns g d).startCol
          (min (g.width - w) ((searchPatterns g d).startCol + (searchPatterns g d).maxAttempts)))
        with
    | some pos =>
      rw [hp1] at hs
      exact scanColMajor_fits (hp1.trans hs)
    | none =>
      rw [hp1] at hs
      cases hp2 : scanRowMajor g w h d (rangeIncl 0 (7 * g.height / 10 - h))
          (rangeIncl 0 (7 * g.width / 10 - w)) with
      | some pos =>
        rw [hp2] at hs
        exact scanRowMajor_fits (hp2.trans hs)
      | none =>
        rw [hp2] at hs
        exact scanRowMajor_fits hs

/-- Every rectangle emitted by the placement loop has a footprint that was
entirely free in the grid the loop started from (occupancy only grows). -/
theorem placeLoop_free (ms : List DomainMetrics) :
    ∀ (g : GridState) (cur : ℕ) (p : PlacedBlock), p ∈ placeLoop g cur ms →
      ∀ r c, cellCovered p r c → (g.cells (r - 1) (c - 1)).occupied = false := by
  induction ms with
  | nil => intro g cur p hp; simp [placeLoop] at hp
  | cons m ms ih =>
    intro g cur p hp r c hcov
    unfold placeLoop at hp
    cases hfind : findNextPosition g m.width m.height m.domain cur with
    | none =>
      rw [hfind] at hp
      exact ih g cur p hp r c hcov
    | some pos =>
      obtain ⟨r0, c0⟩ := pos
      rw [hfind] at hp
      simp only [List.mem_cons] at hp
      rcases hp with heq | hmem
      · subst heq
        have hcan := fitsAt_canPlace (findNextPosition_fits hfind)
        rw [canPlaceBlock_iff] at hcan
        obtain ⟨-, -, hfree⟩ := hcan
        unfold cellCovered at hcov
        dsimp only at hcov
        have hfr := hfree (r - 1 - r0) (c - 1 - c0) (by omega) (by omega)
        have e1 : r0 + (r - 1 - r0) = r - 1 := by omega
        have e2 : c0 + (c - 1 - c0) = c - 1 := by omega
        rwa [e1, e2] at hfr
      · have hfree' := ih _ _ p hmem r c hcov
        rw [placeBlock_cells] at hfree'
        by_cases hin : r0 ≤ r - 1 ∧ r - 1 < r0 + m.height ∧ c0 ≤ c - 1 ∧ c - 1 < c0 + m.width
        · rw [if_pos hin] at hfree'
          exact absurd hfree' (by simp)
        · rwa [if_neg hin] at hfree'

/-- The placement loop emits pairwise disjoint footprints: a later
rectangle's footprint is free in the grid holding every earlier one. -/
theorem placeLoop_disjoint (ms : List DomainMetrics) :
    ∀ (g : GridState) (cur : ℕ), (placeLoop g cur ms).Pairwise blocksDisjoint := by
  induction ms with
  | nil => intro g cur; simp [placeLoop]
  | cons m ms ih =>
    intro g cur
    unfold placeLoop
    cases hfind : findNextPosition g m.width m.height m.domain cur with
    | none => exact ih g cur
    | some pos =>
      obtain ⟨r0, c0⟩ := pos
      refine List.Pairwise.cons ?_ (ih _ _)
      intro q hq
      intro r c hcovp hcovq
      have hfree := placeLoop_free ms _ _ q hq r c hcovq
      rw [placeBlock_cells] at hfree
      unfold cellCovered at hcovp
      dsimp only at hcovp
      rw [if_pos (by omega)] at hfree
      simp at hfree

/-- The domains emitted by the placement loop form a sublist of the input
metric domains: failed categories are dropped, the rest keep their order. -/
theorem placeLoop_domains_sublist (ms : List DomainMetrics) :
    ∀ (g : GridState) (cur : ℕ),
      ((placeLoop g cur ms).map PlacedBlock.domain).Sublist
        (ms.map DomainMetrics.domain) := by
  induction ms with
  | nil => intro g cur; simp [placeLoop]
  | cons m ms ih =>
    intro g cur
    unfold placeLoop
    cases hfind : findNextPosition g m.width m.height m.domain cur with
    | none =>
      exact List.Sublist.cons _ (ih g cur)
    | some pos =>
      obtain ⟨r0, c0⟩ := pos
      simp only [List.map_cons]
      exact List.Sublist.cons₂ _ (ih _ _)

/-- A domain appearing in the loop output appears among the input metrics. -/
theorem placeLoop_domain_mem {ms : List DomainMetrics} {g : GridState} {cur : ℕ}
    {p : PlacedBlock} (hp : p ∈ placeLoop g cur ms) :
    p.domain ∈ ms.map DomainMetrics.domain :=
  (placeLoop_domains_sublist ms g cur).mem (List.mem_map_of_mem PlacedBlock.domain hp)

/-- Helper to evaluate `metricsFor` on concrete inputs without forcing the
rational factor fields. -/
theorem metricsFor_eq (cols rows : ℕ) (tasks : List Task) (d : LifeDomain)
    (ts : List Task) (a w h : ℕ)
    (hfil : tasks.filter (fun t => t.lifeDomain = some d) = ts)
    (hne : ts.isEmpty = false)
    (ha : adjustedCells cols rows d ts = a)
    (hd : calculateDims cols rows a = (w, h)) :
    metricsFor cols rows tasks d = some ⟨d, ts, computeFactors ts, w, h⟩ := by
  unfold metricsFor
  rw [hfil]
  dsimp only
  rw [hne, ha, hd]
  rfl

/-- Helper: a domain without tasks yields no metric entry. -/
theorem metricsFor_none (cols rows : ℕ) (tasks : List Task) (d : LifeDomain)
    (hfil : tasks.filter (fun t => t.lifeDomain = some d) = []) :
    metricsFor cols rows tasks d = none := by
  unfold metricsFor
  rw [hfil]
  rfl

theorem adjusted_yellowTask : adjustedCells 16 12 yellow [yellowTask] = 39 :=
  adjustedCells_eq 16 12 yellow _ (305/16) 36 39
    (by norm_num +decide [importanceScore, computeFactors, taskStressValue, isUrgentTask,
      yellowTask, List.filter_cons, List.filter_nil])
    (by norm_num) (by norm_num [domainImportance])

/-- Concrete run backing several claims: one yellow task, day view. -/
theorem eval_yellow_day : composition [yellowTask] ViewMode.day =
    [⟨yellow, 13, 1, 6, 6⟩] := by
  have hm := metricsFor_eq 16 12 [yellowTask] yellow [yellowTask] 39 6 6
    (by decide) (by decide) adjusted_yellowTask (by decide)
  simp only [composition, compositionCfg, compositionOrderedCfg, VIEW_CONFIGURATIONS,
    sortedMetrics, LIFE_DOMAINS_ORDER, List.filterMap_cons, List.filterMap_nil, hm,
    metricsFor_none 16 12 [yellowTask] purple (by decide),
    metricsFor_none 16 12 [yellowTask] blue (by decide),
    metricsFor_none 16 12 [yellowTask] green (by decide),
    metricsFor_none 16 12 [yellowTask] orange (by decide),
    metricsFor_none 16 12 [yellowTask] red (by decide)]
  decide

theorem adjusted_redSmall : adjustedCells 16 12 red [redSmallTask] = 53 :=
  adjustedCells_eq 16 12 red _ (43/2) 41 53
    (by norm_num +decide [importanceScore, computeFactors, taskStressValue, isUrgentTask,
      redSmallTask, List.filter_cons, List.filter_nil])
    (by norm_num) (by norm_num [domainImportance])

theorem adjusted_purpleSmall : adjustedCells 16 12 purple [purpleSmallTask] = 39 :=
  adjustedCells_eq 16 12 purple _ (35/2) 33 39
    (by norm_num +decide [importanceScore, computeFactors, taskStressValue, isUrgentTask,
      purpleSmallTask, List.filter_cons, List.filter_nil])
    (by norm_num) (by norm_num [domainImportance])

/-- Concrete run backing C8: a red then a purple task, day view.  The
bound `currentRow = 8` after red is ignored: purple lands at row 0. -/
theorem eval_red_purple_day : composition [redSmallTask, purpleSmallTask] ViewMode.day =
    [⟨red, 1, 1, 7, 7⟩, ⟨purple, 1, 8, 6, 6⟩] := by
  have hmr := metricsFor_eq 16 12 [redSmallTask, purpleSmallTask] red [redSmallTask] 53 7 7
    (by decide) (by decide) adjusted_redSmall (by decide)
  have hmp := metricsFor_eq 16 12 [redSmallTask, purpleSmallTask] purple [purpleSmallTask]
    39 6 6 (by decide) (by decide) adjusted_purpleSmall (by decide)
  simp only [composition, compositionCfg, compositionOrderedCfg, VIEW_CONFIGURATIONS,
    sortedMetrics, LIFE_DOMAINS_ORDER, List.filterMap_cons, List.filterMap_nil, hmr, hmp,
    metricsFor_none 16 12 [redSmallTask, purpleSmallTask] blue (by decide),
    metricsFor_none 16 12 [redSmallTask, purpleSmallTask] yellow (by decide),
    metricsFor_none 16 12 [redSmallTask, purpleSmallTask] green (by decide),
    metricsFor_none 16 12 [redSmallTask, purpleSmallTask] orange (by decide)]
  decide

theorem adjusted_purple_c3 : adjustedCells 16 12 purple [purpleSmallTask] = 39 :=
  adjusted_purpleSmall

theorem adjusted_yellow_c3 : adjustedCells 16 12 yellow [yellowPlainTask] = 36 :=
  adjustedCells_eq 16 12 yellow _ (35/2) 33 36
    (by norm_num +decide [importanceScore, computeFactors, taskStressValue, isUrgentTask,
      yellowPlainTask, List.filter_cons, List.filter_nil])
    (by norm_num) (by norm_num [domainImportance])

/-- Concrete run backing C3's counterexample: a purple and a yellow task,
day view; they end up with overlapping column ranges. -/
theorem eval_purple_yellow_day :
    composition [purpleSmallTask, yellowPlainTask] ViewMode.day =
      [⟨purple, 1, 1, 6, 6⟩, ⟨yellow, 13, 1, 6, 6⟩] := by
  have hmp := metricsFor_eq 16 12 [purpleSmallTask, yellowPlainTask] purple [purpleSmallTask]
    39 6 6 (by decide) (by decide) adjusted_purpleSmall (by decide)
  have hmy := metricsFor_eq 16 12 [purpleSmallTask, yellowPlainTask] yellow [yellowPlainTask]
    36 6 6 (by decide) (by decide) adjusted_yellow_c3 (by decide)
  simp only [composition, compositionCfg, compositionOrderedCfg, VIEW_CONFIGURATIONS,
    sortedMetrics, LIFE_DOMAINS_ORDER, List.filterMap_cons, List.filterMap_nil, hmp, hmy,
    metricsFor_none 16 12 [purpleSmallTask, yellowPlainTask] blue (by decide),
    metricsFor_none 16 12 [purpleSmallTask, yellowPlainTask] green (by decide),
    metricsFor_none 16 12 [purpleSmallTask, yellowPlainTask] orange (by decide),
    metricsFor_none 16 12 [purpleSmallTask, yellowPlainTask] red (by decide)]
  decide

theorem adjusted_bigRed :
    adjustedCells 24 20 red [bigRedTask, bigRedTask] = 3294 :=
  adjustedCells_eq 24 20 red _ 528 2534 3294
    (by norm_num +decide [importanceScore, computeFactors, taskStressValue, isUrgentTask,
      bigRedTask, List.filter_cons, List.filter_nil])
    (by norm_num) (by norm_num [domainImportance])

theorem adjusted_bigPurple :
    adjustedCells 24 20 purple [bigPurpleTask, bigPurpleTask] = 3040 :=
  adjustedCells_eq 24 20 purple _ 528 2534 3040
    (by norm_num +decide [importanceScore, computeFactors, taskStressValue, isUrgentTask,
      bigPurpleTask, List.filter_cons, List.filter_nil])
    (by norm_num) (by norm_num [domainImportance])

/-- Characterize `natSqrt` without unfolding its (deep) recursion. -/
theorem natSqrt_eq_of (n m : ℕ) (h1 : m * m ≤ n) (h2 : n < (m + 1) * (m + 1)) :
    natSqrt n = m := by
  rw [natSqrt_eq]
  exact le_antisymm (Nat.le_of_lt_succ (Nat.sqrt_lt.2 h2)) (Nat.le_sqrt.2 h1)

theorem dims_3294 : calculateDims 24 20 3294 = (22, 18) := by
  rw [calculateDims_eq]
  rw [show 6 * 3294 / 5 = 3952 from by norm_num]
  rw [natSqrt_eq_of 3952 62 (by norm_num) (by norm_num)]
  norm_num

theorem dims_3040 : calculateDims 24 20 3040 = (22, 18) := by
  rw [calculateDims_eq]
  rw [show 6 * 3040 / 5 = 3648 from by norm_num]
  rw [natSqrt_eq_of 3648 60 (by norm_num) (by norm_num)]
  norm_num

/-- Concrete run backing C5: two oversized categories on the month canvas;
red is placed, purple finds no position anywhere and is dropped. -/
theorem eval_drop_month :
    composition [bigRedTask, bigRedTask, bigPurpleTask, bigPurpleTask] ViewMode.month =
      [⟨red, 1, 1, 22, 18⟩] := by
  have hmr := metricsFor_eq 24 20 [bigRedTask, bigRedTask, bigPurpleTask, bigPurpleTask] red
    [bigRedTask, bigRedTask] 3294 22 18 (by decide) (by decide) adjusted_bigRed dims_3294
  have hmp := metricsFor_eq 24 20 [bigRedTask, bigRedTask, bigPurpleTask, bigPurpleTask]
    purple [bigPurpleTask, bigPurpleTask] 3040 22 18 (by decide) (by decide)
    adjusted_bigPurple dims_3040
  simp only [composition, compositionCfg, compositionOrderedCfg, VIEW_CONFIGURATIONS,
    sortedMetrics, LIFE_DOMAINS_ORDER, List.filterMap_cons, List.filterMap_nil, hmr, hmp,
    metricsFor_none 24 20 [bigRedTask, bigRedTask, bigPurpleTask, bigPurpleTask] blue
      (by decide),
    metricsFor_none 24 20 [bigRedTask, bigRedTask, bigPurpleTask, bigPurpleTask] yellow
      (by decide),
    metricsFor_none 24 20 [bigRedTask, bigRedTask, bigPurpleTask, bigPurpleTask] green
      (by decide),
    metricsFor_none 24 20 [bigRedTask, bigRedTask, bigPurpleTask, bigPurpleTask] orange
      (by decide)]
  decide

theorem adjusted_green70 : adjustedCells 16 12 green [greenTask 70] = 40 :=
  adjustedCells_eq 16 12 green _ (1015/48) 40 40
    (by norm_num +decide [importanceScore, computeFactors, taskStressValue, isUrgentTask,
      greenTask, List.filter_cons, List.filter_nil])
    (by norm_num) (by norm_num [domainImportance])

theorem adjusted_green75 : adjustedCells 16 12 green [greenTask 75] = 41 :=
  adjustedCells_eq 16 12 green _ (685/32) 41 41
    (by norm_num +decide [importanceScore, computeFactors, taskStressValue, isUrgentTask,
      greenTask, List.filter_cons, List.filter_nil])
    (by norm_num) (by norm_num [domainImportance])

theorem adjusted_green30_cfg3 : adjustedCells 3 12 green [greenTask 30] = 6 :=
  adjustedCells_eq 3 12 green _ (305/16) 6 6
    (by norm_num +decide [importanceScore, computeFactors, taskStressValue, isUrgentTask,
      greenTask, List.filter_cons, List.filter_nil])
    (by norm_num) (by norm_num [domainImportance])

/-- Concrete run backing C9: a 3-column sizing canvas still produces a
layout (of width-2 rectangles) instead of failing. -/
theorem eval_cfg3 : compositionCfg 3 12 [greenTask 30] = [⟨green, 13, 13, 2, 3⟩] := by
  have hm := metricsFor_eq 3 12 [greenTask 30] green [greenTask 30] 6 2 3
    (by decide) (by decide) adjusted_green30_cfg3 (by decide)
  simp only [compositionCfg, compositionOrderedCfg, sortedMetrics, LIFE_DOMAINS_ORDER,
    List.filterMap_cons, List.filterMap_nil, hm,
    metricsFor_none 3 12 [greenTask 30] purple (by decide),
    metricsFor_none 3 12 [greenTask 30] blue (by decide),
    metricsFor_none 3 12 [greenTask 30] yellow (by decide),
    metricsFor_none 3 12 [greenTask 30] orange (by decide),
    metricsFor_none 3 12 [greenTask 30] red (by decide)]
  decide

/-! ### Claim theorems -/

/-- C1: for every input task set and view-mode configuration, the cell
footprints of any two distinct entries of the returned placements list are
disjoint. -/
theorem claim_no_overlap (tasks : List Task) (vm : ViewMode) :
    (composition tasks vm).Pairwise blocksDisjoint :=
  placeLoop_disjoint _ _ _

/-- C7: for every importance score, every domain and every canvas at least
4 by 4, the size mapper returns `2 ≤ width ≤ cols - 2` and
`2 ≤ height ≤ rows - 2` (so a requested width beyond `cols - 2` is clamped
to `cols - 2`), and the area is at least 4 cells. -/
theorem claim_dims_bounds (score : ℚ) (d : LifeDomain) (cols rows : ℕ)
    (hc : 4 ≤ cols) (hr : 4 ≤ rows) :
    2 ≤ (calculateDims cols rows (adjustedFromScore cols rows d score)).1 ∧
    (calculateDims cols rows (adjustedFromScore cols rows d score)).1 ≤ cols - 2 ∧
    2 ≤ (calculateDims cols rows (adjustedFromScore cols rows d score)).2 ∧
    (calculateDims cols rows (adjustedFromScore cols rows d score)).2 ≤ rows - 2 ∧
    4 ≤ (calculateDims cols rows (adjustedFromScore cols rows d score)).1 *
      (calculateDims cols rows (adjustedFromScore cols rows d score)).2 :=
  ⟨calculateDims_width_lower _ _ _,
   calculateDims_width_upper _ _ _ hc,
   calculateDims_height_lower _ _ _,
   calculateDims_height_upper _ _ _ hr,
   Nat.mul_le_mul (calculateDims_width_lower _ _ _) (calculateDims_height_lower _ _ _)⟩

theorem claim_dims_bounds_witness :
    (4 ≤ 16 ∧ 4 ≤ 12) ∧
      (2 ≤ (calculateDims 16 12 (adjustedFromScore 16 12 yellow (305/16))).1 ∧
       (calculateDims 16 12 (adjustedFromScore 16 12 yellow (305/16))).1 ≤ 16 - 2 ∧
       2 ≤ (calculateDims 16 12 (adjustedFromScore 16 12 yellow (305/16))).2 ∧
       (calculateDims 16 12 (adjustedFromScore 16 12 yellow (305/16))).2 ≤ 12 - 2 ∧
       4 ≤ (calculateDims 16 12 (adjustedFromScore 16 12 yellow (305/16))).1 *
         (calculateDims 16 12 (adjustedFromScore 16 12 yellow (305/16))).2) :=
  ⟨⟨by decide, by decide⟩, claim_dims_bounds (305/16) yellow 16 12 (by decide) (by decide)⟩

/-- C10: a task with a missing emotional profile or stress level, or with a
stress level outside the four recognized strings, contributes intensity
0.5, and a nonempty task list made of such tasks yields
`stressLevel = emotionalWeight = 0.5` in the computed factors. -/
theorem claim_default_intensity :
    (∀ t : Task, unknownStress t → taskStressValue t = 5/10) ∧
      ∀ ts : List Task, ts ≠ [] → (∀ t ∈ ts, unknownStress t) →
        (computeFactors ts).stressLevel = 5/10 ∧
          (computeFactors ts).emotionalWeight = 5/10 := by
  refine ⟨taskStressValue_of_unknown, fun ts hne hall => ?_⟩
  have hL : ((ts.length : ℚ)) ≠ 0 := by
    have : ts.length ≠ 0 := fun h0 => hne (List.length_eq_zero.1 h0)
    exact_mod_cast this
  have hsum := stress_sum_of_unknown ts hall
  constructor
  · show ((ts.map taskStressValue).sum) / ts.length = 5/10
    rw [hsum, mul_comm, mul_div_assoc, div_self hL, mul_one]
  · show ((ts.map taskStressValue).sum) / ts.length = 5/10
    rw [hsum, mul_comm, mul_div_assoc, div_self hL, mul_one]

theorem claim_default_intensity_witness :
    (computeFactors [⟨some yellow, some 5, "low", some "odd"⟩,
        ⟨some yellow, none, "low", none⟩]).stressLevel = 5/10 ∧
      (computeFactors [⟨some yellow, some 5, "low", some "odd"⟩,
        ⟨some yellow, none, "low", none⟩]).emotionalWeight = 5/10 :=
  claim_default_intensity.2 _ (by decide) (by decide)

/-- C2 (code-bug evidence): the day preset declares a 16 by 12 canvas and
the size mapper and renderer use it, but the occupancy grid is the fixed
24 by 24 `GRID`; a single yellow task is placed at `originRow = 13` with
`height = 6`, violating `originRow + height ≤ rows + 1` for the preset
while satisfying it for the 24 by 24 grid. -/
theorem claim_bounds_code_bug :
    composition [yellowTask] ViewMode.day = [⟨yellow, 13, 1, 6, 6⟩] ∧
    ¬(13 + 6 ≤ (VIEW_CONFIGURATIONS ViewMode.day).gridRows + 1) ∧
    (13 + 6 ≤ GRID_ROWS + 1) :=
  ⟨eval_yellow_day, by decide, by decide⟩

/-- C8 (code-bug evidence): `findNextPosition` declares the `startRow`
lower bound but never reads it, so its result is independent of that
argument; concretely, after red occupies rows 1-7 (so `composition`'s
`currentRow` bound is 8 in 0-indexed terms), purple is still placed at
0-indexed row 0, above the bound. -/
theorem claim_row_bound_ignored :
    (∀ (g : GridState) (w h : ℕ) (d : LifeDomain) (s1 s2 : ℕ),
        findNextPosition g w h d s1 = findNextPosition g w h d s2) ∧
    composition [redSmallTask, purpleSmallTask] ViewMode.day =
      [⟨red, 1, 1, 7, 7⟩, ⟨purple, 1, 8, 6, 6⟩] ∧
    1 - 1 < (1 - 1) + 7 + 1 :=
  ⟨fun _ _ _ _ _ _ => rfl, eval_red_purple_day, by decide⟩

/-- C5: categories the allocator cannot place are omitted (no partial
rectangle), placed ones keep their order — the output domains are a
sublist of the sorted metric domains — and concretely on the month canvas
purple has a metric entry yet vanishes from the output while red stays. -/
theorem claim_drop_semantics :
    (∀ (tasks : List Task) (vm : ViewMode),
        ((composition tasks vm).map PlacedBlock.domain).Sublist
          ((sortedMetrics LIFE_DOMAINS_ORDER (VIEW_CONFIGURATIONS vm).gridColumns
            (VIEW_CONFIGURATIONS vm).gridRows tasks).map DomainMetrics.domain)) ∧
    composition [bigRedTask, bigRedTask, bigPurpleTask, bigPurpleTask] ViewMode.month =
      [⟨red, 1, 1, 22, 18⟩] ∧
    (metricsFor 24 20 [bigRedTask, bigRedTask, bigPurpleTask, bigPurpleTask] purple).isSome
      = true := by
  refine ⟨fun tasks vm => placeLoop_domains_sublist _ _ _, eval_drop_month, ?_⟩
  rw [metricsFor_eq 24 20 [bigRedTask, bigRedTask, bigPurpleTask, bigPurpleTask]
    purple [bigPurpleTask, bigPurpleTask] 3040 22 18 (by decide) (by decide)
    adjusted_bigPurple dims_3040]
  rfl

/-- C6 (counterexample): increasing green's only task from 70 to 75
minutes raises its score but shrinks the mapped area from 36 to 35 cells:
the realized width-times-height area is not monotone in the score. -/
theorem claim_monotone_cex :
    importanceScore (computeFactors [greenTask 70]) <
      importanceScore (computeFactors [greenTask 75]) ∧
    calculateDims 16 12 (adjustedCells 16 12 green [greenTask 70]) = (6, 6) ∧
    calculateDims 16 12 (adjustedCells 16 12 green [greenTask 75]) = (7, 5) ∧
    7 * 5 < 6 * 6 := by
  have hs70 : importanceScore (computeFactors [greenTask 70]) = 1015/48 := by
    norm_num +decide [importanceScore, computeFactors, taskStressValue, isUrgentTask,
      greenTask, List.filter_cons, List.filter_nil]
  have hs75 : importanceScore (computeFactors [greenTask 75]) = 685/32 := by
    norm_num +decide [importanceScore, computeFactors, taskStressValue, isUrgentTask,
      greenTask, List.filter_cons, List.filter_nil]
  refine ⟨?_, ?_, ?_, by decide⟩
  · rw [hs70, hs75]
    norm_num
  · rw [adjusted_green70]
    decide
  · rw [adjusted_green75]
    decide

/-- C6 (amended): the importance score is monotone in the total estimated
time and in the urgent count (other factors fixed), and the adjusted
target cell count the size mapper requests is monotone in the score; only
the realized rectangle area fails to be monotone. -/
theorem claim_monotone_amended :
    (∀ (f : ModuleSizeFactors) (t1 t2 : ℕ), t1 ≤ t2 →
        importanceScore { f with totalEstimatedTime := t1 } ≤
          importanceScore { f with totalEstimatedTime := t2 }) ∧
    (∀ (f : ModuleSizeFactors) (u1 u2 : ℕ), u1 ≤ u2 →
        importanceScore { f with urgentTasks := u1 } ≤
          importanceScore { f with urgentTasks := u2 }) ∧
    (∀ (cols rows : ℕ) (d : LifeDomain) (s1 s2 : ℚ), s1 ≤ s2 →
        adjustedFromScore cols rows d s1 ≤ adjustedFromScore cols rows d s2) :=
  ⟨importanceScore_mono_time, importanceScore_mono_urgent,
    fun cols rows d _ _ h => adjustedFromScore_mono cols rows d h⟩

theorem claim_monotone_amended_witness :
    (importanceScore ⟨1, 70, 5/10, 0, 5/10⟩ ≤ importanceScore ⟨1, 75, 5/10, 0, 5/10⟩) ∧
      adjustedFromScore 16 12 green 20 ≤ adjustedFromScore 16 12 green 21 :=
  ⟨claim_monotone_amended.1 ⟨1, 0, 5/10, 0, 5/10⟩ 70 75 (by decide),
   claim_monotone_amended.2.2 16 12 green 20 21 (by norm_num)⟩

/-- C9 (counterexample): with a 3-column sizing canvas the engine does not
fail fast: it silently returns a layout whose rectangle has width
2 > columns - 2 = 1. -/
theorem claim_failfast_cex :
    compositionCfg 3 12 [greenTask 30] = [⟨green, 13, 13, 2, 3⟩] ∧ 3 - 2 < 2 :=
  ⟨eval_cfg3, by decide⟩

/-- C9 (amended): the engine has no configuration-validation or error
path: on a sub-minimal canvas it silently produces width-2 rectangles
exceeding `columns - 2`; every shipped view preset satisfies
`columns ≥ 4` (indeed `≥ 16`), so the degenerate case is unreachable
through a `ViewMode`. -/
theorem claim_failfast_amended :
    (∀ vm : ViewMode, 16 ≤ (VIEW_CONFIGURATIONS vm).gridColumns ∧
      12 ≤ (VIEW_CONFIGURATIONS vm).gridRows) ∧
    compositionCfg 3 12 [greenTask 30] = [⟨green, 13, 13, 2, 3⟩] ∧
    (⟨green, 13, 13, 2, 3⟩ : PlacedBlock).width = 2 ∧ 3 - 2 < 2 := by
  refine ⟨fun vm => ?_, eval_cfg3, rfl, by decide⟩
  cases vm <;> exact ⟨by decide, by decide⟩

/-- C3 (counterexample): a purple and a yellow task in day view are placed
at `(1,1)` and `(13,1)`, both 6 by 6: their column ranges coincide, so the
column distance between the footprints is 0 and the claimed bound of at
least 2 cells in both axes fails. -/
theorem claim_spacing_cex :
    composition [purpleSmallTask, yellowPlainTask] ViewMode.day =
      [⟨purple, 1, 1, 6, 6⟩, ⟨yellow, 13, 1, 6, 6⟩] ∧
    domainGroupOf purple = some ConflictGroup.workGroup ∧
    domainGroupOf yellow = some ConflictGroup.peopleGroup ∧
    colDist ⟨purple, 1, 1, 6, 6⟩ ⟨yellow, 13, 1, 6, 6⟩ = 0 ∧
    ¬(2 ≤ rowDist ⟨purple, 1, 1, 6, 6⟩ ⟨yellow, 13, 1, 6, 6⟩ ∧
      2 ≤ colDist ⟨purple, 1, 1, 6, 6⟩ ⟨yellow, 13, 1, 6, 6⟩) :=
  ⟨eval_purple_yellow_day, rfl, rfl, by decide, by decide⟩


/-! ### Order-independence of the sort (determinism) -/

theorem metricsFor_domain {cols rows : ℕ} {tasks : List Task} {d : LifeDomain}
    {m : DomainMetrics} (h : metricsFor cols rows tasks d = some m) : m.domain = d := by
  unfold metricsFor at h
  by_cases he : (tasks.filter fun t => t.lifeDomain = some d).isEmpty
  · rw [if_pos he] at h
    exact absurd h (by simp)
  · rw [if_neg he] at h
    obtain ⟨rfl⟩ := Option.some.inj h
    rfl

theorem filterMap_metrics_domains (cols rows : ℕ) (tasks : List Task) :
    ∀ order : List LifeDomain,
      ((order.filterMap (metricsFor cols rows tasks)).map DomainMetrics.domain).Sublist
        order := by
  intro order
  induction order with
  | nil => simp
  | cons d order ih =>
    cases h : metricsFor cols rows tasks d with
    | none =>
      rw [List.filterMap_cons_none h]
      exact List.Sublist.cons _ ih
    | some m =>
      rw [List.filterMap_cons_some h]
      rw [List.map_cons, metricsFor_domain h]
      exact List.Sublist.cons₂ _ ih

theorem domainPriority_injective : Function.Injective domainPriority := by
  intro d1 d2 h
  revert h
  revert d1 d2
  decide

/-- A `metricsLE`-sorted list whose priorities are distinct is strictly
sorted by priority. -/
theorem sorted_strict_of_nodup :
    ∀ l : List DomainMetrics, l.Sorted metricsLE →
      (l.map (fun m => domainPriority m.domain)).Nodup → l.Pairwise metricsKeyLT := by
  intro l
  induction l with
  | nil => intro _ _; exact List.Pairwise.nil
  | cons a l ih =>
    intro hs hn
    rw [List.sorted_cons] at hs
    rw [List.map_cons, List.nodup_cons] at hn
    refine List.Pairwise.cons ?_ (ih hs.2 hn.2)
    intro b hb
    rcases hs.1 b hb with h | ⟨h, -⟩
    · exact h
    · exfalso
      apply hn.1
      rw [h]
      exact List.mem_map_of_mem (fun m => domainPriority m.domain) hb

/-- The sorted metric list does not depend on the iteration order of the
domain map, as long as that order enumerates the six domains. -/
theorem sortedMetrics_order_indep (order : List LifeDomain) (cols rows : ℕ)
    (tasks : List Task) (h : order.Perm LIFE_DOMAINS_ORDER) :
    sortedMetrics order cols rows tasks = sortedMetrics LIFE_DOMAINS_ORDER cols rows tasks := by
  unfold sortedMetrics
  have hnodup : order.Nodup := h.nodup_iff.2 (by decide)
  have hperm : (order.filterMap (metricsFor cols rows tasks)).Perm
      (LIFE_DOMAINS_ORDER.filterMap (metricsFor cols rows tasks)) := h.filterMap _
  have hp1 : (List.insertionSort metricsLE
      (order.filterMap (metricsFor cols rows tasks))).Perm
      (List.insertionSort metricsLE
        (LIFE_DOMAINS_ORDER.filterMap (metricsFor cols rows tasks))) :=
    ((List.perm_insertionSort _ _).trans hperm).trans
      (List.perm_insertionSort _ _).symm
  have hkey : ∀ (o : List LifeDomain), o.Nodup →
      ((List.insertionSort metricsLE (o.filterMap (metricsFor cols rows tasks))).map
        (fun m => domainPriority m.domain)).Nodup := by
    intro o ho
    have hsub := filterMap_metrics_domains cols rows tasks o
    have hnd : ((o.filterMap (metricsFor cols rows tasks)).map DomainMetrics.domain).Nodup :=
      hsub.nodup ho
    have hnd2 : ((o.filterMap (metricsFor cols rows tasks)).map
        (fun m => domainPriority m.domain)).Nodup := by
      have : (o.filterMap (metricsFor cols rows tasks)).map
          (fun m => domainPriority m.domain) =
          ((o.filterMap (metricsFor cols rows tasks)).map DomainMetrics.domain).map
            domainPriority := by
        rw [List.map_map]
        rfl
      rw [this]
      exact hnd.map (fun x y hxy => domainPriority_injective hxy)
    have hpm : ((List.insertionSort metricsLE
        (o.filterMap (metricsFor cols rows tasks))).map
        (fun m => domainPriority m.domain)).Perm
        ((o.filterMap (metricsFor cols rows tasks)).map
          (fun m => domainPriority m.domain)) :=
      (List.perm_insertionSort _ _).map _
    exact hpm.nodup_iff.2 hnd2
  have hs1 := sorted_strict_of_nodup _ (List.sorted_insertionSort _ _) (hkey order hnodup)
  have hs2 := sorted_strict_of_nodup _ (List.sorted_insertionSort _ _)
    (hkey LIFE_DOMAINS_ORDER (by decide))
  exact List.eq_of_perm_of_sorted hp1 hs1 hs2

/-- C4: the engine is deterministic: it is a pure function of its inputs,
and its output does not depend on the iteration order of the domain
grouping map — any enumeration of the six domains yields placements
identical to the canonical run (same categories, order, coordinates and
dimensions). -/
theorem claim_determinism (order : List LifeDomain) (tasks : List Task) (vm : ViewMode)
    (h : order.Perm LIFE_DOMAINS_ORDER) :
    compositionOrdered order tasks vm = composition tasks vm := by
  unfold compositionOrdered composition compositionCfg compositionOrderedCfg
  rw [sortedMetrics_order_indep order _ _ tasks h]

theorem claim_determinism_witness :
    compositionOrdered [red, orange, green, yellow, blue, purple] [yellowTask]
      ViewMode.day = composition [yellowTask] ViewMode.day :=
  claim_determinism [red, orange, green, yellow, blue, purple] [yellowTask]
    ViewMode.day (by decide)


/-! ### The pre-placement pipeline in priority order -/

/-- Metric lists built from a strictly priority-increasing domain list are
strictly sorted. -/
theorem filterMap_pairwise_key (cols rows : ℕ) (tasks : List Task) :
    ∀ l : List LifeDomain,
      l.Pairwise (fun d d' => domainPriority d < domainPriority d') →
      (l.filterMap (metricsFor cols rows tasks)).Pairwise metricsKeyLT := by
  intro l
  induction l with
  | nil => intro _; simp
  | cons d l ih =>
    intro hp
    rw [List.pairwise_cons] at hp
    cases hm : metricsFor cols rows tasks d with
    | none =>
      rw [List.filterMap_cons_none hm]
      exact ih hp.2
    | some m =>
      rw [List.filterMap_cons_some hm]
      refine List.Pairwise.cons ?_ (ih hp.2)
      intro m' hm'
      obtain ⟨d', hd', hfd'⟩ := List.mem_filterMap.1 hm'
      unfold metricsKeyLT
      rw [metricsFor_domain hm, metricsFor_domain hfd']
      exact hp.1 d' hd'

/-- The sorted metric list is the priority-ordered filterMap. -/
theorem sortedMetrics_eq_priority (cols rows : ℕ) (tasks : List Task) :
    sortedMetrics LIFE_DOMAINS_ORDER cols rows tasks =
      PRIORITY_ORDER.filterMap (metricsFor cols rows tasks) := by
  unfold sortedMetrics
  have hperm : (List.insertionSort metricsLE
      (LIFE_DOMAINS_ORDER.filterMap (metricsFor cols rows tasks))).Perm
      (PRIORITY_ORDER.filterMap (metricsFor cols rows tasks)) :=
    (List.perm_insertionSort _ _).trans
      ((List.Perm.filterMap _ (by decide : LIFE_DOMAINS_ORDER.Perm PRIORITY_ORDER)))
  have hs1 : (List.insertionSort metricsLE
      (LIFE_DOMAINS_ORDER.filterMap (metricsFor cols rows tasks))).Pairwise metricsKeyLT := by
    apply sorted_strict_of_nodup _ (List.sorted_insertionSort _ _)
    have hsub := filterMap_metrics_domains cols rows tasks LIFE_DOMAINS_ORDER
    have hnd : ((LIFE_DOMAINS_ORDER.filterMap
        (metricsFor cols rows tasks)).map DomainMetrics.domain).Nodup :=
      hsub.nodup (by decide)
    have hnd2 : ((LIFE_DOMAINS_ORDER.filterMap (metricsFor cols rows tasks)).map
        (fun m => domainPriority m.domain)).Nodup := by
      have he : (LIFE_DOMAINS_ORDER.filterMap (metricsFor cols rows tasks)).map
          (fun m => domainPriority m.domain) =
          ((LIFE_DOMAINS_ORDER.filterMap
            (metricsFor cols rows tasks)).map DomainMetrics.domain).map domainPriority := by
        rw [List.map_map]
        rfl
      rw [he]
      exact hnd.map (fun x y hxy => domainPriority_injective hxy)
    have hpm := (List.perm_insertionSort metricsLE
      (LIFE_DOMAINS_ORDER.filterMap (metricsFor cols rows tasks))).map
      (fun m => domainPriority m.domain)
    exact hpm.nodup_iff.2 hnd2
  have hs2 : (PRIORITY_ORDER.filterMap (metricsFor cols rows tasks)).Pairwise metricsKeyLT :=
    filterMap_pairwise_key cols rows tasks PRIORITY_ORDER (by decide)
  exact List.eq_of_perm_of_sorted hperm hs1 hs2

/-- Dimensions carried by a metric entry respect the size-mapper bounds. -/
theorem metricsFor_dims_bounds {cols rows : ℕ} {tasks : List Task} {d : LifeDomain}
    {m : DomainMetrics} (h : metricsFor cols rows tasks d = some m)
    (hc : 4 ≤ cols) (hr : 4 ≤ rows) :
    2 ≤ m.width ∧ m.width ≤ cols - 2 ∧ 2 ≤ m.height ∧ m.height ≤ rows - 2 := by
  unfold metricsFor at h
  by_cases he : (tasks.filter fun t => t.lifeDomain = some d).isEmpty
  · rw [if_pos he] at h
    exact absurd h (by simp)
  · rw [if_neg he] at h
    obtain ⟨rfl⟩ := Option.some.inj h
    dsimp only
    exact ⟨calculateDims_width_lower _ _ _, calculateDims_width_upper _ _ _ hc,
      calculateDims_height_lower _ _ _, calculateDims_height_upper _ _ _ hr⟩

/-! ### Spacing validator facts -/

/-- A grid in which every occupied cell belongs to red rejects no
non-red candidate: red is in no conflict group. -/
theorem hasEnoughSpacing_of_onlyRed {g : GridState} {row col w h : ℕ} {d : LifeDomain}
    (hd : d ≠ red)
    (honly : ∀ r c, (g.cells r c).occupied = true → (g.cells r c).domain = some red) :
    hasEnoughSpacing g row col w h d = true := by
  unfold hasEnoughSpacing
  rw [List.all_eq_true]
  intro r hr
  rw [List.all_eq_true]
  intro c hc
  dsimp only
  by_cases hb : r < g.height ∧ c < g.width
  · rw [if_pos hb]
    cases hocc : (g.cells r c).occupied with
    | false => rfl
    | true =>
      rw [honly r c hocc]
      dsimp only
      rw [if_neg]
      intro hcon
      rcases hcon with hsame | ⟨-, hg, -⟩
      · exact hd hsame.symm
      · simp [domainGroupOf] at hg
  · rw [if_neg hb]

/-- The empty grid rejects nothing. -/
theorem hasEnoughSpacing_of_empty {g : GridState} {row col w h : ℕ} {d : LifeDomain}
    (hfree : ∀ r c, (g.cells r c).occupied = false) :
    hasEnoughSpacing g row col w h d = true := by
  unfold hasEnoughSpacing
  rw [List.all_eq_true]
  intro r hr
  rw [List.all_eq_true]
  intro c hc
  dsimp only
  by_cases hb : r < g.height ∧ c < g.width
  · rw [if_pos hb, hfree r c]
  · rw [if_neg hb]

/-- What acceptance by `hasEnoughSpacing` says about each occupied cell of
the scanned region whose owner conflicts with the candidate. -/
theorem hasEnoughSpacing_sep {g : GridState} {row col w h : ℕ} {d : LifeDomain}
    (hsp : hasEnoughSpacing g row col w h d = true)
    {r c : ℕ} {od : LifeDomain}
    (hr1 : row - 2 ≤ r) (hr2 : r ≤ min (g.height - 1) (row + h + 2))
    (hc1 : col - 2 ≤ c) (hc2 : c ≤ min (g.width - 1) (col + w + 2))
    (hrh : r < g.height) (hcw : c < g.width)
    (hocc : (g.cells r c).occupied = true)
    (hdom : (g.cells r c).domain = some od)
    (hcond : od = d ∨ ((domainGroupOf d).isSome ∧ (domainGroupOf od).isSome ∧
      domainGroupOf d ≠ domainGroupOf od)) :
    2 ≤ natDist r row ∧ 2 ≤ natDist c col := by
  unfold hasEnoughSpacing at hsp
  rw [List.all_eq_true] at hsp
  have hrow := hsp r (mem_rangeIncl.2 ⟨hr1, hr2⟩)
  rw [List.all_eq_true] at hrow
  have hcell := hrow c (mem_rangeIncl.2 ⟨hc1, hc2⟩)
  dsimp only at hcell
  rw [if_pos ⟨hrh, hcw⟩, hocc, hdom] at hcell
  dsimp only at hcell
  rw [if_pos hcond] at hcell
  rw [Bool.and_eq_true, decide_eq_true_eq, decide_eq_true_eq] at hcell
  exact hcell

/-- Shift invariance of the range distance (used to translate between the
0-indexed grid and the 1-indexed output). -/
theorem rangeDist_shift (a0 a1 b0 b1 : ℕ) :
    rangeDist (a0 + 1) (a1 + 1) (b0 + 1) (b1 + 1) = rangeDist a0 a1 b0 b1 := by
  unfold rangeDist
  split_ifs <;> omega

/-- Core geometric fact behind the amended spacing claim: if every cell of
a purple rectangle anchored at the top or left edge is marked in `g`, then
a yellow candidate accepted by the spacing validator is at least two cells
away from it in one of the two axes.  (The validator measures distances to
the candidate origin only, but an anchored rectangle that comes closer in
both axes would put a purple cell within distance 1 of the origin row or
column, which the validator rejects.) -/
theorem spacing_anchored_no_touch
    {g : GridState} (hgw : g.width = 24) (hgh : g.height = 24)
    {pr pc wp hp : ℕ} (hwp : 1 ≤ wp) (hhp : 1 ≤ hp)
    (hprb : pr + hp ≤ 24) (hpcb : pc + wp ≤ 24)
    (hcells : ∀ r c, pr ≤ r → r < pr + hp → pc ≤ c → c < pc + wp →
      (g.cells r c).occupied = true ∧ (g.cells r c).domain = some purple)
    {row col w h : ℕ} (hw : 1 ≤ w) (hh : 1 ≤ h)
    (hrowb : row + h ≤ 24) (hcolb : col + w ≤ 24)
    (hsp : hasEnoughSpacing g row col w h yellow = true)
    (hanchor : pr = 0 ∨ pc = 0) :
    2 ≤ rangeDist pr (pr + hp - 1) row (row + h - 1) ∨
      2 ≤ rangeDist pc (pc + wp - 1) col (col + w - 1) := by
  by_contra hcon
  push_neg at hcon
  obtain ⟨hrd, hcd⟩ := hcon
  -- pick a purple row within one cell of the candidate row range
  obtain ⟨r', hr'⟩ : ∃ r', pr ≤ r' ∧ r' ≤ pr + hp - 1 ∧ row ≤ r' + 1 ∧ r' ≤ row + h := by
    unfold rangeDist at hrd
    split_ifs at hrd with h1 h2
    · exact ⟨pr + hp - 1, by omega⟩
    · exact ⟨pr, by omega⟩
    · exact ⟨max pr row, by omega⟩
  obtain ⟨c', hc'⟩ : ∃ c', pc ≤ c' ∧ c' ≤ pc + wp - 1 ∧ col ≤ c' + 1 ∧ c' ≤ col + w := by
    unfold rangeDist at hcd
    split_ifs at hcd with h1 h2
    · exact ⟨pc + wp - 1, by omega⟩
    · exact ⟨pc, by omega⟩
    · exact ⟨max pc col, by omega⟩
  have hgrp : (purple = yellow ∨ ((domainGroupOf yellow).isSome ∧
      (domainGroupOf purple).isSome ∧ domainGroupOf yellow ≠ domainGroupOf purple)) := by
    right
    refine ⟨rfl, rfl, ?_⟩
    intro hcon2
    simp [domainGroupOf] at hcon2
  have hcell := hcells r' c' hr'.1 (by omega) hc'.1 (by omega)
  have hdist := hasEnoughSpacing_sep hsp (by omega) (by rw [hgh]; omega)
    (by omega) (by rw [hgw]; omega) (by omega) (by omega) hcell.1 hcell.2 hgrp
  have hr2 : row + 2 ≤ r' := by
    have := hdist.1
    unfold natDist at this
    omega
  have hc2 : col + 2 ≤ c' := by
    have := hdist.2
    unfold natDist at this
    omega
  -- the purple rectangle cannot start within one cell of the origin row
  have hpr2 : row + 2 ≤ pr := by
    by_contra hple
    push_neg at hple
    have hcell2 := hcells (row + 1) c' (by omega) (by omega) hc'.1 (by omega)
    have hdist2 := hasEnoughSpacing_sep hsp (by omega) (by rw [hgh]; omega)
      (by omega) (by rw [hgw]; omega) (by omega) (by omega) hcell2.1 hcell2.2 hgrp
    have := hdist2.1
    unfold natDist at this
    omega
  have hpc2 : col + 2 ≤ pc := by
    by_contra hple
    push_neg at hple
    have hcell2 := hcells r' (col + 1) hr'.1 (by omega) (by omega) (by omega)
    have hdist2 := hasEnoughSpacing_sep hsp (by omega) (by rw [hgh]; omega)
      (by omega) (by rw [hgw]; omega) (by omega) (by omega) hcell2.1 hcell2.2 hgrp
    have := hdist2.2
    unfold natDist at this
    omega
  omega


/-! ### First-fit characterization of the scans -/

theorem find?_range'_first {p : ℕ → Bool} :
    ∀ (n a c : ℕ), (List.range' a n).find? p = some c →
      p c = true ∧ a ≤ c ∧ c < a + n ∧ ∀ x, a ≤ x → x < c → p x = false := by
  intro n
  induction n with
  | zero => intro a c hfind; simp [List.range'] at hfind
  | succ n ih =>
    intro a c hfind
    rw [List.range'_succ a n 1] at hfind
    cases hpa : p a with
    | true =>
      rw [List.find?_cons_of_pos _ hpa] at hfind
      obtain rfl := Option.some.inj hfind
      exact ⟨hpa, le_refl _, by omega, fun x hx1 hx2 => absurd (lt_of_le_of_lt hx1 hx2)
        (lt_irrefl _)⟩
    | false =>
      rw [List.find?_cons_of_neg _ (by simp [hpa])] at hfind
      obtain ⟨h1, h2, h3, h4⟩ := ih (a + 1) c hfind
      refine ⟨h1, by omega, by omega, fun x hx1 hx2 => ?_⟩
      rcases Nat.eq_or_lt_of_le hx1 with heq | hlt
      · rw [← heq]; exact hpa
      · exact h4 x hlt hx2

theorem scanRowMajor_first {g : GridState} {w h : ℕ} {d : LifeDomain} :
    ∀ (n a : ℕ) (cols : List ℕ) (r c : ℕ),
      scanRowMajor g w h d (List.range' a n) cols = some (r, c) →
        a ≤ r ∧ r < a + n ∧ cols.find? (fitsAt g w h d r) = some c ∧
          ∀ x, a ≤ x → x < r → cols.find? (fitsAt g w h d x) = none := by
  intro n
  induction n with
  | zero => intro a cols r c hscan; simp [List.range', scanRowMajor] at hscan
  | succ n ih =>
    intro a cols r c hscan
    unfold scanRowMajor at hscan
    rw [List.range'_succ a n 1, List.findSome?_cons] at hscan
    cases hfa : cols.find? (fitsAt g w h d a) with
    | some c0 =>
      rw [hfa] at hscan
      simp only [Option.map_some', Option.some.injEq, Prod.mk.injEq] at hscan
      obtain ⟨rfl, rfl⟩ := hscan
      exact ⟨le_refl _, by omega, hfa, fun x hx1 hx2 => absurd (lt_of_le_of_lt hx1 hx2)
        (lt_irrefl _)⟩
    | none =>
      rw [hfa] at hscan
      simp only [Option.map_none'] at hscan
      have hscan2 : scanRowMajor g w h d (List.range' (a + 1) n) cols = some (r, c) := hscan
      obtain ⟨h1, h2, h3, h4⟩ := ih (a + 1) cols r c hscan2
      refine ⟨by omega, by omega, h3, fun x hx1 hx2 => ?_⟩
      rcases Nat.eq_or_lt_of_le hx1 with heq | hlt
      · rw [← heq]; exact hfa
      · exact h4 x hlt hx2

theorem onlyRedRect_empty : onlyRedRect (initializeGrid 24 24) 0 0 := by
  refine ⟨rfl, rfl, fun r c => ?_, fun r c hocc => ?_⟩
  · simp [initializeGrid]
  · simp [initializeGrid] at hocc

theorem onlyRedRect_place {wr hr : ℕ} (hwr : 1 ≤ wr) (hhr : 1 ≤ hr) :
    onlyRedRect (placeBlock (initializeGrid 24 24) red 0 0 wr hr) wr hr := by
  refine ⟨rfl, rfl, fun r c => ?_, fun r c hocc => ?_⟩
  · rw [placeBlock_cells]
    by_cases hin : 0 ≤ r ∧ r < 0 + hr ∧ 0 ≤ c ∧ c < 0 + wr
    · rw [if_pos hin]
      simp only [true_iff]
      omega
    · rw [if_neg hin]
      simp [initializeGrid]
      omega
  · rw [placeBlock_cells] at hocc ⊢
    by_cases hin : 0 ≤ r ∧ r < 0 + hr ∧ 0 ≤ c ∧ c < 0 + wr
    · rw [if_pos hin]
    · rw [if_neg hin] at hocc
      simp [initializeGrid] at hocc

/-- On a red-only grid, a non-red candidate passes exactly when the block
fits; the spacing test never rejects. -/
theorem fitsAt_eq_canPlace_of_onlyRed {g : GridState} {w h : ℕ} {d : LifeDomain}
    (hd : d ≠ red)
    (honly : ∀ r c, (g.cells r c).occupied = true → (g.cells r c).domain = some red)
    (r c : ℕ) : fitsAt g w h d r c = canPlaceBlock g r c w h := by
  unfold fitsAt
  rw [hasEnoughSpacing_of_onlyRed hd honly, Bool.and_true]

/-- First-fit on a red-anchored grid: any position returned by a row-major
scan over ranges starting at row 0 and column 0 touches the top or the
left edge. -/
theorem scan_anchored {g : GridState} {wr hr wp hp : ℕ}
    (hred : onlyRedRect g wr hr) (hwp : 1 ≤ wp) (hhp : 1 ≤ hp)
    {R C r c : ℕ}
    (hscan : scanRowMajor g wp hp purple (rangeIncl 0 R) (rangeIncl 0 C) = some (r, c)) :
    r = 0 ∨ c = 0 := by
  obtain ⟨hgw, hgh, hiff, hdom⟩ := hred
  by_contra hcon
  push_neg at hcon
  obtain ⟨hr0, hc0⟩ := hcon
  obtain ⟨-, -, hfr, hbefore⟩ := scanRowMajor_first (R + 1 - 0) 0 (rangeIncl 0 C) r c hscan
  obtain ⟨hfit, -, hcC, hcols⟩ := find?_range'_first (C + 1 - 0) 0 c hfr
  have hfit0r : fitsAt g wp hp purple r 0 = false :=
    hcols 0 (le_refl 0) (Nat.pos_of_ne_zero hc0)
  have hfind0 := hbefore 0 (le_refl 0) (Nat.pos_of_ne_zero hr0)
  have hfit0c : fitsAt g wp hp purple 0 c = false := by
    have := List.find?_eq_none.1 hfind0 c (mem_rangeIncl.2 ⟨Nat.zero_le c, by omega⟩)
    exact Bool.not_eq_true _ ▸ Bool.of_not_eq_true this
  rw [fitsAt_eq_canPlace_of_onlyRed (by decide) hdom] at hfit hfit0r hfit0c
  rw [canPlaceBlock_iff] at hfit
  obtain ⟨hbr, hbc, hfree⟩ := hfit
  -- (r, 0) fails although in bounds: some footprint cell meets red
  have hocc_r : r < hr ∧ 1 ≤ wr := by
    have hnot : ¬(r + hp ≤ g.height ∧ 0 + wp ≤ g.width ∧
        ∀ i j, i < hp → j < wp → (g.cells (r + i) (0 + j)).occupied = false) := by
      rw [← canPlaceBlock_iff]
      simp [hfit0r]
    push_neg at hnot
    obtain ⟨i, j, hi, hj, hcell⟩ := hnot hbr (by omega)
    have := (hiff (r + i) (0 + j)).1 (by simpa using hcell)
    omega
  have hocc_c : c < wr ∧ 1 ≤ hr := by
    have hnot : ¬(0 + hp ≤ g.height ∧ c + wp ≤ g.width ∧
        ∀ i j, i < hp → j < wp → (g.cells (0 + i) (c + j)).occupied = false) := by
      rw [← canPlaceBlock_iff]
      simp [hfit0c]
    push_neg at hnot
    obtain ⟨i, j, hi, hj, hcell⟩ := hnot (by omega) (by omega)
    have := (hiff (0 + i) (c + j)).1 (by simpa using hcell)
    omega
  have hrc := hfree 0 0 (by omega) (by omega)
  have := (hiff (r + 0) (c + 0)).2 (by omega)
  rw [this] at hrc
  exact absurd hrc (by simp)

theorem findNextPosition_purple_anchored {g : GridState} {wr hr wp hp sr r c : ℕ}
    (hred : onlyRedRect g wr hr) (hwp : 1 ≤ wp) (hhp : 1 ≤ hp)
    (hfind : findNextPosition g wp hp purple sr = some (r, c)) : r = 0 ∨ c = 0 := by
  unfold findNextPosition searchPatterns at hfind
  dsimp only at hfind
  cases hp1 : scanRowMajor g wp hp purple (rangeIncl 0 (min (g.height - hp) (0 + 4 * g.width / 10)))
      (rangeIncl 0 (min (g.width - wp) (0 + 4 * g.width / 10))) with
  | some pos =>
    rw [hp1] at hfind
    exact scan_anchored hred hwp hhp (hp1.trans hfind)
  | none =>
    rw [hp1] at hfind
    cases hp2 : scanRowMajor g wp hp purple (rangeIncl 0 (7 * g.height / 10 - hp))
        (rangeIncl 0 (7 * g.width / 10 - wp)) with
    | some pos =>
      rw [hp2] at hfind
      exact scan_anchored hred hwp hhp (hp2.trans hfind)
    | none =>
      rw [hp2] at hfind
      exact scan_anchored hred hwp hhp hfind

theorem rangeIncl_zero_cons (n : ℕ) : rangeIncl 0 n = 0 :: List.range' 1 n := by
  unfold rangeIncl
  have he : n + 1 - 0 = n + 1 := by omega
  rw [he, List.range'_succ 0 n 1]

theorem scanRowMajor_head {g : GridState} {w h : ℕ} {d : LifeDomain} {r0 c0 : ℕ}
    {rows cols : List ℕ} (hfit : fitsAt g w h d r0 c0 = true) :
    scanRowMajor g w h d (r0 :: rows) (c0 :: cols) = some (r0, c0) := by
  unfold scanRowMajor
  rw [List.findSome?_cons, List.find?_cons_of_pos _ hfit]
  rfl

/-- On the empty 24 by 24 grid, red is placed at the origin: the first
candidate of its preferred pattern is accepted at once. -/
theorem findNextPosition_red_empty {wr hr : ℕ} (sr : ℕ) (hwb : wr ≤ 24) (hhb : hr ≤ 24) :
    findNextPosition (initializeGrid 24 24) wr hr red sr = some (0, 0) := by
  have hfit : fitsAt (initializeGrid 24 24) wr hr red 0 0 = true := by
    unfold fitsAt
    rw [hasEnoughSpacing_of_empty (fun _ _ => rfl), Bool.and_true]
    rw [canPlaceBlock_iff]
    exact ⟨by simpa [initializeGrid] using hhb, by simpa [initializeGrid] using hwb,
      fun i j _ _ => rfl⟩
  unfold findNextPosition searchPatterns
  dsimp only
  rw [show (initializeGrid 24 24).height = 24 from rfl,
    show (initializeGrid 24 24).width = 24 from rfl]
  rw [rangeIncl_zero_cons (min (24 - hr) (0 + 3 * 24 / 10)),
    rangeIncl_zero_cons (min (24 - wr) (0 + 3 * 24 / 10))]
  rw [scanRowMajor_head hfit]

theorem placeLoop_cons (g : GridState) (cur : ℕ) (m : DomainMetrics)
    (ms : List DomainMetrics) :
    placeLoop g cur (m :: ms) =
      match findNextPosition g m.width m.height m.domain cur with
      | some (r, c) =>
        ⟨m.domain, r + 1, c + 1, m.width, m.height⟩ ::
          placeLoop (placeBlock g m.domain r c m.width m.height)
            (max cur (r + m.height + 1)) ms
      | none => placeLoop g cur ms := rfl

theorem rangeDist_shift1 (a0 H b0 K : ℕ) (hH : 1 ≤ H) (hK : 1 ≤ K) :
    rangeDist (a0 + 1) (a0 + 1 + H - 1) (b0 + 1) (b0 + 1 + K - 1) =
      rangeDist a0 (a0 + H - 1) b0 (b0 + K - 1) := by
  unfold rangeDist
  split_ifs <;> omega

/-- Stepping the placement loop over a red-anchored grid: if a purple and
a yellow metric come next (in that order) and both get placed, their
output rectangles are two cells apart in some axis. -/
theorem place_purple_yellow_core
    {g1 : GridState} {wr hr : ℕ} (hred : onlyRedRect g1 wr hr)
    {mp my : DomainMetrics} (hdp : mp.domain = purple) (hdy : my.domain = yellow)
    (hwp : 1 ≤ mp.width) (hhp : 1 ≤ mp.height) (hwy : 1 ≤ my.width) (hhy : 1 ≤ my.height)
    {rest : List DomainMetrics}
    (hrest : ∀ m ∈ rest, m.domain ≠ purple ∧ m.domain ≠ yellow)
    {cur : ℕ} {p y : PlacedBlock}
    (hp : p ∈ placeLoop g1 cur (mp :: my :: rest))
    (hy : y ∈ placeLoop g1 cur (mp :: my :: rest))
    (hpd : p.domain = purple) (hyd : y.domain = yellow) :
    2 ≤ rowDist p y ∨ 2 ≤ colDist p y := by
  have hrestloop : ∀ (g : GridState) (cu : ℕ) (q : PlacedBlock),
      q ∈ placeLoop g cu rest → q.domain ≠ purple ∧ q.domain ≠ yellow := by
    intro g cu q hq
    have hmem := placeLoop_domain_mem hq
    obtain ⟨m, hm, hdm⟩ := List.mem_map.1 hmem
    rw [← hdm]
    exact hrest m hm
  rw [placeLoop_cons] at hp hy
  cases hfp : findNextPosition g1 mp.width mp.height mp.domain cur with
  | none =>
    exfalso
    rw [hfp] at hp
    dsimp only at hp
    rw [placeLoop_cons] at hp
    cases hfy0 : findNextPosition g1 my.width my.height my.domain cur with
    | none =>
      rw [hfy0] at hp
      dsimp only at hp
      exact (hrestloop _ _ p hp).1 hpd
    | some posy =>
      obtain ⟨ry, cy⟩ := posy
      rw [hfy0] at hp
      dsimp only at hp
      rcases List.mem_cons.1 hp with heq | hmem
      · rw [heq] at hpd
        dsimp only at hpd
        rw [hdy] at hpd
        exact LifeDomain.noConfusion hpd
      · exact (hrestloop _ _ p hmem).1 hpd
  | some posp =>
    obtain ⟨rp, cp⟩ := posp
    rw [hfp] at hp hy
    dsimp only at hp hy
    rw [hdp] at hfp
    have hanchor : rp = 0 ∨ cp = 0 :=
      findNextPosition_purple_anchored hred hwp hhp hfp
    have hcanp := fitsAt_canPlace (findNextPosition_fits hfp)
    rw [canPlaceBlock_iff] at hcanp
    rw [placeLoop_cons] at hp hy
    cases hfy : findNextPosition (placeBlock g1 mp.domain rp cp mp.width mp.height)
        my.width my.height my.domain (max cur (rp + mp.height + 1)) with
    | none =>
      exfalso
      rw [hfy] at hy
      dsimp only at hy
      rcases List.mem_cons.1 hy with heq | hmem
      · rw [heq] at hyd
        dsimp only at hyd
        rw [hdp] at hyd
        exact LifeDomain.noConfusion hyd
      · exact (hrestloop _ _ y hmem).2 hyd
    | some posy =>
      obtain ⟨ry, cy⟩ := posy
      rw [hfy] at hp hy
      dsimp only at hp hy
      rw [hdy] at hfy
      have hcany := fitsAt_canPlace (findNextPosition_fits hfy)
      rw [canPlaceBlock_iff] at hcany
      have hspy := fitsAt_spacing (findNextPosition_fits hfy)
      have hpeq : p = ⟨mp.domain, rp + 1, cp + 1, mp.width, mp.height⟩ := by
        rcases List.mem_cons.1 hp with heq | hp2
        · exact heq
        · rcases List.mem_cons.1 hp2 with heq | hmem
          · exfalso
            rw [heq] at hpd
            dsimp only at hpd
            rw [hdy] at hpd
            exact LifeDomain.noConfusion hpd
          · exact absurd hpd (hrestloop _ _ p hmem).1
      have hyeq : y = ⟨my.domain, ry + 1, cy + 1, my.width, my.height⟩ := by
        rcases List.mem_cons.1 hy with heq | hy2
        · exfalso
          rw [heq] at hyd
          dsimp only at hyd
          rw [hdp] at hyd
          exact LifeDomain.noConfusion hyd
        · rcases List.mem_cons.1 hy2 with heq | hmem
          · exact heq
          · exact absurd hyd (hrestloop _ _ y hmem).2
      have hsep := spacing_anchored_no_touch
        (g := placeBlock g1 mp.domain rp cp mp.width mp.height)
        (by rw [placeBlock_width]; exact hred.1)
        (by rw [placeBlock_height]; exact hred.2.1)
        hwp hhp
        (by
          have h1 := hcanp.1
          rw [hred.2.1] at h1
          exact h1)
        (by
          have h1 := hcanp.2.1
          rw [hred.1] at h1
          exact h1)
        (fun r c h1 h2 h3 h4 => by
          rw [placeBlock_cells, if_pos ⟨h1, h2, h3, h4⟩]
          exact ⟨rfl, by rw [hdp]⟩)
        hwy hhy
        (by
          have h1 := hcany.1
          rw [placeBlock_height, hred.2.1] at h1
          exact h1)
        (by
          have h1 := hcany.2.1
          rw [placeBlock_width] at h1
          rw [hred.1] at h1
          exact h1)
        hspy hanchor
      rw [hpeq, hyeq]
      unfold rowDist colDist
      dsimp only
      rw [rangeDist_shift1 rp mp.height ry my.height hhp hhy,
        rangeDist_shift1 cp mp.width cy my.width hwp hwy]
      exact hsep

/-- After the (optional) red placement, if purple and yellow both appear
in the output they are separated by the gap in some axis. -/
theorem spacing_tail {g1 : GridState} {wr hr : ℕ} (hred : onlyRedRect g1 wr hr)
    {cols rows : ℕ} (hc : 4 ≤ cols) (hr4 : 4 ≤ rows)
    {tasks : List Task} {cur : ℕ} {p y : PlacedBlock}
    (hp : p ∈ placeLoop g1 cur
      ([purple, yellow, blue, green, orange].filterMap (metricsFor cols rows tasks)))
    (hy : y ∈ placeLoop g1 cur
      ([purple, yellow, blue, green, orange].filterMap (metricsFor cols rows tasks)))
    (hpd : p.domain = purple) (hyd : y.domain = yellow) :
    2 ≤ rowDist p y ∨ 2 ≤ colDist p y := by
  cases hmp : metricsFor cols rows tasks purple with
  | none =>
    exfalso
    rw [show ([purple, yellow, blue, green, orange] : List LifeDomain) =
      purple :: [yellow, blue, green, orange] from rfl,
      List.filterMap_cons_none hmp] at hp
    have hmem := placeLoop_domain_mem hp
    rw [hpd] at hmem
    exact absurd
      ((filterMap_metrics_domains cols rows tasks [yellow, blue, green, orange]).subset hmem)
      (by decide)
  | some mp =>
    rw [show ([purple, yellow, blue, green, orange] : List LifeDomain) =
      purple :: [yellow, blue, green, orange] from rfl,
      List.filterMap_cons_some hmp] at hp hy
    cases hmy : metricsFor cols rows tasks yellow with
    | none =>
      exfalso
      rw [show ([yellow, blue, green, orange] : List LifeDomain) =
        yellow :: [blue, green, orange] from rfl,
        List.filterMap_cons_none hmy] at hy
      have hmem := placeLoop_domain_mem hy
      rw [hyd, List.map_cons, metricsFor_domain hmp] at hmem
      rcases List.mem_cons.1 hmem with h1 | h2
      · exact LifeDomain.noConfusion h1
      · exact absurd
          ((filterMap_metrics_domains cols rows tasks [blue, green, orange]).subset h2)
          (by decide)
    | some my =>
      rw [show ([yellow, blue, green, orange] : List LifeDomain) =
        yellow :: [blue, green, orange] from rfl,
        List.filterMap_cons_some hmy] at hp hy
      have hbp := metricsFor_dims_bounds hmp hc hr4
      have hby := metricsFor_dims_bounds hmy hc hr4
      refine place_purple_yellow_core hred (metricsFor_domain hmp) (metricsFor_domain hmy)
        (by omega) (by omega) (by omega) (by omega) ?_ hp hy hpd hyd
      intro m hm
      have hmem : m.domain ∈ ([blue, green, orange] : List LifeDomain) :=
        (filterMap_metrics_domains cols rows tasks [blue, green, orange]).subset
          (List.mem_map_of_mem DomainMetrics.domain hm)
      constructor <;> (intro hcon; rw [hcon] at hmem; revert hmem; decide)

/-- Purple/yellow separation for an arbitrary sizing canvas of reasonable
dimensions. -/
theorem spacing_compositionCfg {cols rows : ℕ} (hc : 4 ≤ cols) (hr4 : 4 ≤ rows)
    (hcu : cols ≤ 24) (hru : rows ≤ 24)
    {tasks : List Task} {p y : PlacedBlock}
    (hp : p ∈ compositionCfg cols rows tasks)
    (hy : y ∈ compositionCfg cols rows tasks)
    (hpd : p.domain = purple) (hyd : y.domain = yellow) :
    2 ≤ rowDist p y ∨ 2 ≤ colDist p y := by
  unfold compositionCfg compositionOrderedCfg at hp hy
  rw [sortedMetrics_eq_priority] at hp hy
  rw [show PRIORITY_ORDER = red :: [purple, yellow, blue, green, orange] from rfl] at hp hy
  cases hmr : metricsFor cols rows tasks red with
  | none =>
    rw [List.filterMap_cons_none hmr] at hp hy
    exact spacing_tail onlyRedRect_empty hc hr4 hp hy hpd hyd
  | some mr =>
    rw [List.filterMap_cons_some hmr] at hp hy
    have hbr := metricsFor_dims_bounds hmr hc hr4
    have hfr : findNextPosition (initializeGrid GRID_COLUMNS GRID_ROWS)
        mr.width mr.height mr.domain 0 = some (0, 0) := by
      rw [metricsFor_domain hmr]
      exact findNextPosition_red_empty 0 (by omega) (by omega)
    rw [placeLoop_cons, hfr] at hp hy
    dsimp only at hp hy
    have hred2 := onlyRedRect_place (by omega : 1 ≤ mr.width) (by omega : 1 ≤ mr.height)
    rw [metricsFor_domain hmr] at hp hy
    rcases List.mem_cons.1 hp with heq | hp2
    · exfalso
      rw [heq] at hpd
      exact LifeDomain.noConfusion hpd
    rcases List.mem_cons.1 hy with heq | hy2
    · exfalso
      rw [heq] at hyd
      exact LifeDomain.noConfusion hyd
    exact spacing_tail hred2 hc hr4 hp2 hy2 hpd hyd

/-- C3 (amended): for every task list and view mode, any placed purple
rectangle and any placed yellow rectangle (the two conflict groups) are
separated by at least the configured 2-cell gap in at least one axis; the
original claim of a 2-cell gap in both axes simultaneously fails (see the
counterexample), because `hasEnoughSpacing` measures distances to the
candidate origin only. -/
theorem claim_spacing_amended (tasks : List Task) (vm : ViewMode)
    (p y : PlacedBlock)
    (hp : p ∈ composition tasks vm) (hy : y ∈ composition tasks vm)
    (hpd : p.domain = purple) (hyd : y.domain = yellow) :
    2 ≤ rowDist p y ∨ 2 ≤ colDist p y := by
  unfold composition at hp hy
  cases vm with
  | day => refine spacing_compositionCfg ?_ ?_ ?_ ?_ hp hy hpd hyd <;> decide
  | week => refine spacing_compositionCfg ?_ ?_ ?_ ?_ hp hy hpd hyd <;> decide
  | month => refine spacing_compositionCfg ?_ ?_ ?_ ?_ hp hy hpd hyd <;> decide

/-- The amended C3 theorem, instantiated on the concrete purple/yellow
day-view run: row separation of 7 cells is reported. -/
theorem claim_spacing_amended_witness :
    2 ≤ rowDist ⟨purple, 1, 1, 6, 6⟩ ⟨yellow, 13, 1, 6, 6⟩ ∨
      2 ≤ colDist ⟨purple, 1, 1, 6, 6⟩ ⟨yellow, 13, 1, 6, 6⟩ :=
  claim_spacing_amended [purpleSmallTask, yellowPlainTask] ViewMode.day
    ⟨purple, 1, 1, 6, 6⟩ ⟨yellow, 13, 1, 6, 6⟩
    (by rw [eval_purple_yellow_day]; exact List.mem_cons_self _ _)
    (by rw [eval_purple_yellow_day]; exact List.mem_cons_of_mem _ (List.mem_cons_self _ _))
    rfl rfl

end Listless
